import Mathlib

/-!
Shallow embedding of the text-to-ODE compiler of this repository
(`construction/reaction_rules.py` and the `register_word` method of
`construction/text2model.py`).

Python strings are modelled as Lean `String` (a structure over `List Char`;
the inputs of interest are ASCII).  Python lists are Lean lists, the mutable
`ReactionRules` dataclass is the `Builder` structure threaded through every
operation, and a raised Python exception is `some msg` in the second
component of the returned pair — exactly as in Python, the mutations already
performed on the object are retained when an exception propagates.

All string primitives are written with structural recursion (fuel bounded by
the string length where needed) so that concrete runs reduce inside the
kernel.
-/

set_option maxHeartbeats 2000000

namespace Pasmopy

/-- ASCII whitespace, for the no-argument Python `str.strip()`. -/
def wsChars : List Char := [' ', '\t', '\n', '\r']

/-- Python `str.lstrip(set)`: drop leading characters belonging to `set`. -/
def lstripChars (cs : List Char) : List Char → List Char
  | [] => []
  | c :: t => if cs.contains c then lstripChars cs t else c :: t

/-- Python `str.rstrip(set)`: drop trailing characters belonging to `set`. -/
def rstripChars (cs : List Char) (l : List Char) : List Char :=
  (lstripChars cs l.reverse).reverse

def pyLstrip (set s : String) : String := ⟨lstripChars set.toList s.toList⟩

def pyRstrip (set s : String) : String := ⟨rstripChars set.toList s.toList⟩

/-- Python `str.strip(set)` (with an explicit character set). -/
def pyStrip (set s : String) : String := pyRstrip set (pyLstrip set s)

/-- Python `str.strip()` with no argument (whitespace). -/
def pyStripWS (s : String) : String :=
  ⟨rstripChars wsChars (lstripChars wsChars s.toList)⟩

/-- Substring occurrence on character lists (Python `pat in s`). -/
def listContains (pat : List Char) : List Char → Bool
  | [] => pat.isPrefixOf []
  | c :: t => pat.isPrefixOf (c :: t) || listContains pat t

/-- Python `pat in s` for strings. -/
def pyIn (pat s : String) : Bool := listContains pat.toList s.toList

/-- Helper for `pySplitOn`; `fuel` bounds the length of the remaining input,
so the recursion is structural. -/
def splitAux (sep : List Char) : Nat → List Char → List Char → List (List Char)
  | _, acc, [] => [acc.reverse]
  | 0, acc, rest => [acc.reverse ++ rest]
  | fuel + 1, acc, c :: t =>
    if sep.isPrefixOf (c :: t) then
      acc.reverse :: splitAux sep fuel [] ((c :: t).drop sep.length)
    else
      (splitAux sep fuel (c :: acc) t)

/-- Python `s.split(sep)` for a nonempty separator (all the separators used
by the source are nonempty literals). -/
def pySplitOn (s sep : String) : List String :=
  if sep.toList.isEmpty then [s]
  else (splitAux sep.toList s.toList.length [] s.toList).map String.mk

/-- Helper for `pyReplace` with structural fuel. -/
def replaceAux (pat rep : List Char) : Nat → List Char → List Char
  | _, [] => []
  | 0, s => s
  | fuel + 1, c :: t =>
    if pat.isPrefixOf (c :: t) then
      rep ++ replaceAux pat rep fuel ((c :: t).drop pat.length)
    else
      c :: replaceAux pat rep fuel t

/-- Python `s.replace(pat, rep)` for a nonempty pattern: replaces every
non-overlapping occurrence, left to right. -/
def pyReplace (s pat rep : String) : String :=
  ⟨replaceAux pat.toList rep.toList s.toList.length s.toList⟩

/-- Python `sep.join(parts)`. -/
def pyJoin (sep : String) : List String → String
  | [] => ""
  | h :: t => t.foldl (fun acc x => acc ++ sep ++ x) h

/-- Python `list.count(x)` for string lists. -/
def pyCount (x : String) : List String → Nat
  | [] => 0
  | h :: t => (if h = x then 1 else 0) + pyCount x t

/-- Python `s.count(sub)` for a nonempty substring (non-overlapping count). -/
def pyCountSub (s sub : String) : Nat := (pySplitOn s sub).length - 1

/-- Python `s.startswith(pre)`. -/
def pyStartsWith (s pre : String) : Bool := pre.toList.isPrefixOf s.toList

/-- Python `s.endswith(suf)`. -/
def pyEndsWith (s suf : String) : Bool := suf.toList.isSuffixOf s.toList

/-- Python `s.isdecimal()` (ASCII model: nonempty and all digits). -/
def pyIsDecimal (s : String) : Bool := !s.toList.isEmpty && s.toList.all (·.isDigit)

/-- Python slice `s[i : i + k]` (character indices). -/
def subStr (s : String) (i k : Nat) : String := ⟨(s.toList.drop i).take k⟩

/-- Python `max(l, key=len)` — the first element of greatest length; `none`
on an empty list (where Python raises `ValueError`). -/
def maxByLen : List String → Option String
  | [] => none
  | h :: t => some (t.foldl (fun best w => if w.length > best.length then w else best) h)

/-- Python `l[-1]` for string lists (used only where `l` is nonempty). -/
def pyLast (l : List String) : String := l.getLastD ""

/-- Value of a digit run as a natural number. -/
def digitsToNat (l : List Char) : Nat :=
  l.foldl (fun acc c => acc * 10 + (c.toNat - '0'.toNat)) 0

/-- Python `int(s)` on a string accepted by `isdecimal` (leading zeros
allowed; the source re-renders the result with `toString`, normalising
them). -/
def pyParseNat (s : String) : Nat := digitsToNat s.toList

/-- Signed mantissa/exponent parsing helper: parses `digits[.digits]` into a
rational, or `none` when malformed. -/
def parseMantissa (s : List Char) : Option ℚ :=
  match (pySplitOn ⟨s⟩ ".").map String.toList with
  | [ip] =>
    if !ip.isEmpty && ip.all (·.isDigit) then some (digitsToNat ip) else none
  | [ip, fp] =>
    if (ip ++ fp).isEmpty then none
    else if ip.all (·.isDigit) && fp.all (·.isDigit) then
      some ((digitsToNat (ip ++ fp) : ℚ) / (10 : ℚ) ^ fp.length)
    else none
  | _ => none

/-- Model of Python `float(s)` on the common literal forms
`[ws][+|-]digits[.digits][(e|E)[+|-]digits][ws]` (also `.5`, `5.`).
`inf`, `nan` and `_` separators are not modelled; no line of the claims
exercises them.  Exact rationals stand in for IEEE doubles — every literal
comparison the source performs on these values (equality with `0.0`,
equality of two volumes) is exact for decimal literals of realistic size. -/
def parseFloat (s : String) : Option ℚ :=
  let t := (pyStripWS s).toList
  let (sign, t) : ℚ × List Char :=
    match t with
    | '-' :: r => (-1, r)
    | '+' :: r => (1, r)
    | _ => (1, t)
  let applyExp : ℚ → List Char → Option ℚ := fun m e =>
    let (esign, e) : Int × List Char :=
      match e with
      | '-' :: r => (-1, r)
      | '+' :: r => (1, r)
      | _ => (1, e)
    if !e.isEmpty && e.all (·.isDigit) then
      some (m * (10 : ℚ) ^ (esign * (digitsToNat e : Int)))
    else none
  match (pySplitOn ⟨t⟩ "e").map String.toList with
  | [m] =>
    match (pySplitOn ⟨m⟩ "E").map String.toList with
    | [m'] => (parseMantissa m').map (sign * ·)
    | [m', e] => (parseMantissa m').bind (fun q => (applyExp q e).map (sign * ·))
    | _ => none
  | [m, e] =>
    if listContains ['E'] m || listContains ['E'] e then none
    else (parseMantissa m).bind (fun q => (applyExp q e).map (sign * ·))
  | _ => none

/-- Python `str(s) can be converted to float` (`ReactionRules._isfloat`). -/
def isFloat (s : String) : Bool := (parseFloat s).isSome

/-- Keep-first deduplication; models the conversion of a list to a Python
`set` (only existence of members matters for the checker below; CPython's
hash iteration order is not observable in any claim). -/
def firstDedup : List (String × String) → List (String × String)
  | [] => []
  | h :: t => h :: (firstDedup t).filter (· ≠ h)

/-!
Model of `difflib.SequenceMatcher(None, a, b).ratio()` as used by
`ReactionRules._word2scores`.  All strings compared in the source are far
below the 200-character autojunk threshold, so the junk machinery is
inert and is not modelled.  `find_longest_match` returns the longest
matching block, ties broken by the earliest start in `a` and then in `b`;
`ratio` is `2*M/T` where `M` is the total size of the matching blocks
obtained by recursing on both sides of that block and `T` the sum of the
lengths (and `1.0` when `T` is zero).  Scores are exact rationals standing
in for IEEE doubles; the source only compares them against `0.7` and
`1.0`, and no input of realistic size can make the rational and the
floating comparison disagree.
-/

/-- Length of the longest common prefix of two character lists. -/
def commonPrefixLen : List Char → List Char → Nat
  | a :: as, b :: bs => if a = b then commonPrefixLen as bs + 1 else 0
  | _, _ => 0

/-- Length of the matching block starting at `(i, j)`. -/
def candK (a b : List Char) (i j : Nat) : Nat :=
  commonPrefixLen (a.drop i) (b.drop j)

/-- One update step of `find_longest_match`: keep the recorded block unless
the candidate is strictly longer (this realises the earliest-in-`a`,
earliest-in-`b` tie break of the source's bookkeeping loop). -/
def updBest (a b : List Char) (best : Nat × Nat × Nat) (i j : Nat) : Nat × Nat × Nat :=
  if candK a b i j > best.2.2 then (i, j, candK a b i j) else best

def foldJ (a b : List Char) (i : Nat) (best : Nat × Nat × Nat) : Nat × Nat × Nat :=
  (List.range b.length).foldl (fun best j => updBest a b best i j) best

/-- `find_longest_match` over the whole of `a` and `b`:
`(besti, bestj, bestsize)`. -/
def bestTriple (a b : List Char) : Nat × Nat × Nat :=
  (List.range a.length).foldl (fun best i => foldJ a b i best) (0, 0, 0)

/-- Total size of the matching blocks: the size of the longest match plus
recursion on both unmatched sides (the sum a `get_matching_blocks`
traversal would produce).  `fuel` bounds the recursion depth;
`a.length + b.length` is always sufficient because every recursion step
strictly shrinks the combined length. -/
def matchTotalF : Nat → List Char → List Char → Nat
  | 0, _, _ => 0
  | fuel + 1, a, b =>
    if (bestTriple a b).2.2 = 0 then 0
    else
      matchTotalF fuel (a.take (bestTriple a b).1) (b.take (bestTriple a b).2.1) +
        (bestTriple a b).2.2 +
        matchTotalF fuel (a.drop ((bestTriple a b).1 + (bestTriple a b).2.2))
          (b.drop ((bestTriple a b).2.1 + (bestTriple a b).2.2))

def matchTotal (a b : List Char) : Nat := matchTotalF (a.length + b.length) a b


/-- Model of `SequenceMatcher(None, a, b).ratio()`. -/
def ratioQ (a b : List Char) : ℚ :=
  if a.length + b.length = 0 then 1
  else 2 * (matchTotal a b : ℚ) / ((a.length : ℚ) + (b.length : ℚ))

/-!
The data model: the mutable `ReactionRules` dataclass becomes the `Builder`
structure; every handler takes and returns a `Builder`, with `some msg` in
the second component when the Python code raises.
-/

/-- Initial `rule_words` dictionary (insertion-ordered). -/
def defaultRuleWords : List (String × List String) :=
  [("dimerize", [" dimerizes", " homodimerizes", " forms a dimer", " forms dimers"]),
   ("bind", [" binds", " forms complexes with"]),
   ("is_dissociated", [" is dissociated into"]),
   ("is_phosphorylated", [" is phosphorylated"]),
   ("is_dephosphorylated", [" is dephosphorylated"]),
   ("phosphorylate", [" phosphorylates"]),
   ("dephosphorylate", [" dephosphorylates"]),
   ("transcribe", [" transcribe", " transcribes"]),
   ("is_translated", [" is translated into"]),
   ("synthesize", [" synthesizes", " promotes synthesis of"]),
   ("is_synthesized", [" is synthesized"]),
   ("degrade", [" degrades", " promotes degradation of"]),
   ("is_degraded", [" is degraded"]),
   ("is_translocated", [" is translocated"])]

/-- Modelled from the spec: the module `prepositions.py` (the `PREPOSITIONS`
list imported by `reaction_rules.py`) is not included under src/.  The spec
says only that trigger phrases are matched "after preposition stripping";
we model a list of common English prepositions, each carrying the leading
space with which trigger phrases are stored.  No default trigger phrase of
a claim's scenario ends in a preposition, so the exact contents only affect
which phrases are stripped before dispatch, never the scenarios proved
below. -/
def PREPOSITIONS : List String :=
  [" to", " for", " from", " up", " down", " in", " on", " at", " into",
   " around", " among", " between", " through", " of", " off", " with", " by"]

/-- `ReactionRules._remove_prepositions`: on the first preposition the
phrase ends with, Python calls `str.rstrip(preposition)`, which strips the
trailing characters drawn from the preposition's character set. -/
def removePrepositions (sentence : String) : String :=
  match PREPOSITIONS.find? (fun p => pyEndsWith sentence p) with
  | some p => pyRstrip p sentence
  | none => sentence

/-- The mutable state of `ReactionRules` (field names as in the source;
`protein_phosphorylation` holds `(unphosphorylated, phosphorylated)`
pairs). -/
structure Builder where
  parameters : List String := []
  species : List String := []
  reactions : List String := []
  differential_equations : List String := []
  obs_desc : List (List String) := []
  param_info : List String := []
  init_info : List String := []
  param_constraints : List String := []
  param_excluded : List String := []
  protein_phosphorylation : List (String × String) := []
  sim_tspan : List String := []
  sim_conditions : List (List String) := []
  sim_unperturbed : String := ""
  rule_words : List (String × List String) := defaultRuleWords
deriving DecidableEq

/-- A fresh `ReactionRules` object. -/
def initialBuilder : Builder := {}

/-- `ReactionRules._set_params`. -/
def setParams (n : Nat) : Builder → List String → Builder
  | b, [] => b
  | b, p :: rest =>
    if (p ++ toString n) ∈ b.parameters then setParams n b rest
    else setParams n { b with parameters := b.parameters ++ [p ++ toString n] } rest

/-- `ReactionRules._set_species`. -/
def setSpecies : Builder → List String → Builder
  | b, [] => b
  | b, s :: rest =>
    if s ∈ b.species then setSpecies b rest
    else setSpecies { b with species := b.species ++ [s] } rest

/-- `self.rule_words[name]` (the key always exists in the source). -/
def lookupWords (rules : List (String × List String)) (name : String) : List String :=
  match rules.find? (fun rw => rw.1 == name) with
  | some rw => rw.2
  | none => []

/-- `pval.split("=")[0].strip(" ")` of a parameter-clause token. -/
def paramBase0 (pval : String) : String := pyStrip " " ((pySplitOn pval "=").getD 0 "")

/-- Whether the token carries the `const ` prefix. -/
def paramIsConst (pval : String) : Bool := pyStartsWith (paramBase0 pval) "const "

/-- The base parameter name of a token (after the `const ` split). -/
def paramBase (pval : String) : String :=
  if paramIsConst pval then pyLast (pySplitOn (paramBase0 pval) "const ") else paramBase0 pval

/-- `pval.split("=")[1].strip(" ")`. -/
def paramValue (pval : String) : String := pyStrip " " ((pySplitOn pval "=").getD 1 "")

/-- A zero initial value or a `const ` prefix adds the symbol to
`param_excluded`. -/
def excludeIfZero (n : Nat) (pval : String) (b : Builder) : Builder :=
  if parseFloat (paramValue pval) = some 0 ∨ paramIsConst pval then
    { b with param_excluded := b.param_excluded ++ [paramBase pval ++ toString n] }
  else b

/-- Parameter-clause tokens of the form `name=value` (first branch of the
clause extraction in `_preprocessing`). -/
def processParamTokens (n : Nat) (args : List String) :
    Builder → List String → Builder × Option String
  | b, [] => (b, none)
  | b, pval :: rest =>
    if paramBase pval ∈ args then
      if isFloat (paramValue pval) then
        processParamTokens n args
          (excludeIfZero n pval
            { b with param_info := b.param_info ++
              ["x[C." ++ paramBase pval ++ toString n ++ "] = " ++ paramValue pval] }) rest
      else
        (b, some ("line" ++ toString n ++ ": Parameter value must be int or float."))
    else
      (b, some ("line" ++ toString n ++ ": '" ++ paramBase0 pval ++
        "'\nAvailable parameters are: " ++ pyJoin ", " args ++ "."))

/-- Parameter-constraint clause (a single line-number token). -/
def processConstraints (n K : Nat) : Builder → List String → Builder × Option String
  | b, [] => (b, none)
  | b, pname :: rest =>
    if (pname ++ toString K) ∉ b.parameters then
      (b, some ("Line " ++ toString n ++ " and " ++ toString K ++
        " : Different reaction rules in parameter constraints."))
    else
      let stmt := "x[C." ++ pname ++ toString n ++ "] = x[C." ++ pname ++ toString K ++ "]"
      processConstraints n K
        { b with
          param_excluded := b.param_excluded ++ [pname ++ toString n],
          param_info := b.param_info ++ [stmt],
          param_constraints := b.param_constraints ++ [stmt] } rest

/-- Initial-value clause tokens.  When a token has no `=`, the source would
hit an `IndexError` after the name was found inside the sentence; the
source's `NameError` message embeds an unformatted placeholder (a plain
string concatenated into an f-string), which we abbreviate. -/
def processInitTokens (n : Nat) (sentence : String) :
    Builder → List String → Builder × Option String
  | b, [] => (b, none)
  | b, ival :: rest =>
    if pyIn (paramBase0 ival) sentence then
      match pySplitOn ival "=" with
      | _ :: v :: _ =>
        if isFloat (pyStrip " " v) then
          processInitTokens n sentence
            { b with init_info := b.init_info ++
              ["y0[V." ++ paramBase0 ival ++ "] = " ++ pyStrip " " v] } rest
        else
          (b, some ("line" ++ toString n ++ ": Initial value must be int or float."))
      | _ => (b, some "IndexError: list index out of range")
    else
      (b, some ("line" ++ toString n ++ ": Name is not defined."))

/-- The parameter-clause half of the clause-extraction block of
`_preprocessing` (`line.split("|")[1]`). -/
def processParamClause (b : Builder) (n : Nat) (line : String) (args : List String) :
    Builder × Option String :=
  if pyStripWS ((pySplitOn line "|").getD 1 "") ≠ "" then
    if (pySplitOn (pyStripWS ((pySplitOn line "|").getD 1 "")) ",").all
        (fun pval => pyIn "=" pval) then
      processParamTokens n args b (pySplitOn (pyStripWS ((pySplitOn line "|").getD 1 "")) ",")
    else if pyIsDecimal (pyStrip " "
        ((pySplitOn (pyStripWS ((pySplitOn line "|").getD 1 "")) ",").getD 0 "")) then
      processConstraints n (pyParseNat (pyStrip " "
        ((pySplitOn (pyStripWS ((pySplitOn line "|").getD 1 "")) ",").getD 0 ""))) b args
    else (b, none)
  else (b, none)

/-- The initial-value-clause half (`line.split("|")[2]`, reachable only
when the parameter clause did not raise). -/
def processInitClause (b : Builder) (n : Nat) (line : String) : Builder × Option String :=
  if pyCountSub line "|" > 1 ∧ pyStripWS ((pySplitOn line "|").getD 2 "") ≠ "" then
    processInitTokens n ((pySplitOn line "|").getD 0 "") b
      (pySplitOn (pyStripWS ((pySplitOn line "|").getD 2 "")) ",")
  else (b, none)

/-- The clause-extraction block of `_preprocessing` (executed when `|`
occurs in the line). -/
def processClauses (b : Builder) (n : Nat) (line : String) (args : List String) :
    Builder × Option String :=
  match processParamClause b n line args with
  | (b, some e) => (b, some e)
  | (b, none) => processInitClause b n line

/-- The `line = line.split("|")[0]` reassignment of `_preprocessing`. -/
def lineCutOf (line : String) : String :=
  if pyIn "|" line then (pySplitOn line "|").getD 0 "" else line

/-- The trigger phrases of `funcName` occurring in the clause-stripped
line (`hit_words`). -/
def hitWords (rules : List (String × List String)) (funcName line : String) : List String :=
  (lookupWords rules funcName).filter (fun w => pyIn w (lineCutOf line))

/-- The final step of `_preprocessing`: split the stripped sentence at the
longest hit phrase; `max` of an empty hit list raises in Python. -/
def preprocessingSplit (b : Builder) (funcName : String) (line : String) :
    Builder × Except String (List String) :=
  match maxByLen (hitWords b.rule_words funcName line) with
  | none => (b, Except.error "max() arg is an empty sequence")
  | some w => (b, Except.ok (pySplitOn (pyStripWS (lineCutOf line)) w))

/-- `ReactionRules._preprocessing`: register the expected parameters,
process the auxiliary clauses, then split the (clause-stripped) sentence at
the longest matching trigger phrase.  The handlers read `description[0]`
and `description[1]`, which both exist whenever the split succeeds, so
out-of-range access is modelled by `getD` with an empty default. -/
def preprocessing (b : Builder) (funcName : String) (n : Nat) (line : String)
    (args : List String) : Builder × Except String (List String) :=
  match (if pyIn "|" line then processClauses (setParams n b args) n line args
         else (setParams n b args, none)) with
  | (b, some e) => (b, Except.error e)
  | (b, none) => preprocessingSplit b funcName line

/-- `ReactionRules._word2scores`: similarity of `word` against every
equal-length substring of `sentence` (empty when the sentence is shorter
than the word, where Python's `range` is empty). -/
def word2scores (word sentence : String) : List ℚ :=
  let w := word.toList
  let s := sentence.toList
  if w.length ≤ s.length then
    (List.range (s.length - w.length + 1)).map (fun i => ratioQ w ((s.drop i).take w.length))
  else []

/-- Python `max(l)` on rationals for a nonempty list (callers guard the
empty case exactly as the source does). -/
def pyMaxD : List ℚ → ℚ
  | [] => 0
  | h :: t => t.foldl max h

/-- `np.argmax`: first index of the maximum (0 on the empty list, which no
caller reaches). -/
def argmaxQ (l : List ℚ) : Nat := l.indexOf (pyMaxD l)

/-- Result record of `_get_partial_similarity` (`UnregisteredRule`). -/
structure UnregisteredRule where
  expected : Option String
  original : Option String
deriving DecidableEq

/-- All trigger phrases, in `rule_words` iteration order. -/
def allRuleWords (rules : List (String × List String)) : List String :=
  (rules.map Prod.snd).flatten

/-- One iteration of `_get_partial_similarity`'s loop: the phrase, its best
score and its best-scoring window, skipped when the line is shorter than
the phrase (empty `ratios`). -/
def urEntry (line w : String) : Option (String × ℚ × String) :=
  if (word2scores w line).isEmpty then none
  else some (w, pyMaxD (word2scores w line),
    subStr line (argmaxQ (word2scores w line)) w.length)

/-- The `expected_word` selection of `_get_partial_similarity`: `None` when
every best score is below the `0.7` threshold, else the phrase at the
argmax of the scores. -/
def urExpected (entries : List (String × ℚ × String)) : Option String :=
  if (entries.map (fun e => e.2.1)).all (fun score => score < (7 : ℚ)/10) then none
  else some ((entries.map (fun e => e.1)).getD (argmaxQ (entries.map (fun e => e.2.1))) "")

/-- The `original_word` selection: the recorded window of the expected
phrase. -/
def urOriginal (entries : List (String × ℚ × String)) : Option String → Option String
  | none => none
  | some w => some ((entries.map (fun e => e.2.2)).getD
      ((entries.map (fun e => e.1)).indexOf w) "")

/-- `ReactionRules._get_partial_similarity` with the source's default
threshold `0.7`. -/
def getPartialSimilarity (rules : List (String × List String)) (line : String) :
    UnregisteredRule :=
  ⟨urExpected ((allRuleWords rules).filterMap (urEntry line)),
   urOriginal ((allRuleWords rules).filterMap (urEntry line))
     (urExpected ((allRuleWords rules).filterMap (urEntry line)))⟩

/-- Accumulator pass over `differential_equations` with one pattern:
append `add` to each entry containing `pat`, counting the hits. -/
def accum1 (eqs : List String) (pat add : String) : List String × Nat :=
  eqs.foldl (fun acc eq =>
    if pyIn pat eq then (acc.1 ++ [eq ++ add], acc.2 + 1) else (acc.1 ++ [eq], acc.2))
    ([], 0)

/-- Accumulator pass with two patterns tried in `if`/`elif` order. -/
def accum2 (eqs : List String) (p1 a1 p2 a2 : String) : List String × Nat × Nat :=
  eqs.foldl (fun acc eq =>
    if pyIn p1 eq then (acc.1 ++ [eq ++ a1], acc.2.1 + 1, acc.2.2)
    else if pyIn p2 eq then (acc.1 ++ [eq ++ a2], acc.2.1, acc.2.2 + 1)
    else (acc.1 ++ [eq], acc.2))
    ([], 0, 0)

/-- Accumulator pass with three patterns tried in `if`/`elif` order. -/
def accum3 (eqs : List String) (p1 a1 p2 a2 p3 a3 : String) :
    List String × Nat × Nat × Nat :=
  eqs.foldl (fun acc eq =>
    if pyIn p1 eq then (acc.1 ++ [eq ++ a1], acc.2.1 + 1, acc.2.2)
    else if pyIn p2 eq then (acc.1 ++ [eq ++ a2], acc.2.1, acc.2.2.1 + 1, acc.2.2.2)
    else if pyIn p3 eq then (acc.1 ++ [eq ++ a3], acc.2.1, acc.2.2.1, acc.2.2.2 + 1)
    else (acc.1 ++ [eq], acc.2))
    ([], 0, 0, 0)

/-- `dydt[V.{name}]` search pattern. -/
def dydtPat (name : String) : String := "dydt[V." ++ name ++ "]"

/-- `description[0].strip(" ")`. -/
def descHead (desc : List String) : String := pyStrip " " (desc.getD 0 "")

/-- `description[1].split(" --> ")[0].strip(" ")`. -/
def descArrow0 (desc : List String) : String :=
  pyStrip " " ((pySplitOn (desc.getD 1 "") " --> ").getD 0 "")

/-- `description[1].split(" --> ")[1].strip(" ")`. -/
def descArrow1 (desc : List String) : String :=
  pyStrip " " ((pySplitOn (desc.getD 1 "") " --> ").getD 1 "")

/-- `description[1].split(" and ")[0].strip(" ")`. -/
def descAnd0 (desc : List String) : String :=
  pyStrip " " ((pySplitOn (desc.getD 1 "") " and ").getD 0 "")

/-- `description[1].split(" and ")[1].strip(" ")`. -/
def descAnd1 (desc : List String) : String :=
  pyStrip " " ((pySplitOn (desc.getD 1 "") " and ").getD 1 "")

/-- Species/rate-law/accumulator block of `dimerize` (after the sentence
checks). -/
def dimerizeCore (b : Builder) (n : Nat) (monomer dimer : String) :
    Builder × Option String :=
  let b := setSpecies b [monomer, dimer]
  let b := { b with reactions := b.reactions ++
    ["v[" ++ toString n ++ "] = x[C.kf" ++ toString n ++ "] * y[V." ++ monomer ++
      "] * y[V." ++ monomer ++ "] - x[C.kr" ++ toString n ++ "] * y[V." ++ dimer ++ "]"] }
  let r := accum2 b.differential_equations
    (dydtPat monomer) (" - 2 * v[" ++ toString n ++ "]")
    (dydtPat dimer) (" + v[" ++ toString n ++ "]")
  let eqs := r.1
  let eqs := if r.2.1 = 0 then
      eqs ++ ["dydt[V." ++ monomer ++ "] = - v[" ++ toString n ++ "]"] else eqs
  let eqs := if r.2.2 = 0 then
      eqs ++ ["dydt[V." ++ dimer ++ "] = + v[" ++ toString n ++ "]"] else eqs
  ({ b with differential_equations := eqs }, none)

/-- `ReactionRules.dimerize`. -/
def dimerize (b : Builder) (n : Nat) (line : String) : Builder × Option String :=
  match preprocessing b "dimerize" n line ["kf", "kr"] with
  | (b, Except.error e) => (b, some e)
  | (b, Except.ok desc) =>
    if pyIn " --> " (desc.getD 1 "") then
      if descHead desc = descArrow1 desc then
        (b, some (descArrow1 desc ++ " <- Use a different name."))
      else
        dimerizeCore b n (descHead desc) (descArrow1 desc)
    else
      (b, some ("line" ++ toString n ++ ": Use '-->' to specify the name of the dimer."))

/-- Species/rate-law/accumulator block of `bind`. -/
def bindCore (b : Builder) (n : Nat) (component1 component2 comp : String) :
    Builder × Option String :=
  let b := setSpecies b [component1, component2, comp]
  let b := { b with reactions := b.reactions ++
    ["v[" ++ toString n ++ "] = x[C.kf" ++ toString n ++ "] * y[V." ++ component1 ++
      "] * y[V." ++ component2 ++ "] - x[C.kr" ++ toString n ++ "] * y[V." ++ comp ++ "]"] }
  let r := accum3 b.differential_equations
    (dydtPat component1) (" - v[" ++ toString n ++ "]")
    (dydtPat component2) (" - v[" ++ toString n ++ "]")
    (dydtPat comp) (" + v[" ++ toString n ++ "]")
  let eqs := r.1
  let eqs := if r.2.1 = 0 then
      eqs ++ ["dydt[V." ++ component1 ++ "] = - v[" ++ toString n ++ "]"] else eqs
  let eqs := if r.2.2.1 = 0 then
      eqs ++ ["dydt[V." ++ component2 ++ "] = - v[" ++ toString n ++ "]"] else eqs
  let eqs := if r.2.2.2 = 0 then
      eqs ++ ["dydt[V." ++ comp ++ "] = + v[" ++ toString n ++ "]"] else eqs
  ({ b with differential_equations := eqs }, none)

/-- `ReactionRules.bind` (falls back to `dimerize` when the two components
coincide, passing the original line on). -/
def bind (b : Builder) (n : Nat) (line : String) : Builder × Option String :=
  match preprocessing b "bind" n line ["kf", "kr"] with
  | (b, Except.error e) => (b, some e)
  | (b, Except.ok desc) =>
    if pyIn " --> " (desc.getD 1 "") then
      if descHead desc = descArrow1 desc ∨ descArrow0 desc = descArrow1 desc then
        (b, some ("line" ++ toString n ++ ": " ++ descArrow1 desc ++
          " <- Use a different name."))
      else if descHead desc = descArrow0 desc then
        dimerize b n line
      else
        bindCore b n (descHead desc) (descArrow0 desc) (descArrow1 desc)
    else
      (b, some ("line" ++ toString n ++
        ": Use '-->' to specify the name of the protein complex."))

/-- Species/rate-law/accumulator block of `is_dissociated`. -/
def isDissociatedCore (b : Builder) (n : Nat) (comp component1 component2 : String) :
    Builder × Option String :=
  let b := setSpecies b [comp, component1, component2]
  let b := { b with reactions := b.reactions ++
    ["v[" ++ toString n ++ "] = x[C.kf" ++ toString n ++ "] * y[V." ++ comp ++
      "] - x[C.kr" ++ toString n ++ "] * y[V." ++ component1 ++
      "] * y[V." ++ component2 ++ "]"] }
  let a2 := if component1 ≠ component2 then " + v[" ++ toString n ++ "]"
    else " + 2 * v[" ++ toString n ++ "]"
  let r := accum3 b.differential_equations
    (dydtPat comp) (" - v[" ++ toString n ++ "]")
    (dydtPat component1) a2
    (dydtPat component2) (" + v[" ++ toString n ++ "]")
  let eqs := r.1
  let eqs := if r.2.1 = 0 then
      eqs ++ ["dydt[V." ++ comp ++ "] = - v[" ++ toString n ++ "]"] else eqs
  let eqs := if r.2.2.1 = 0 then
      eqs ++ ["dydt[V." ++ component1 ++ "] = + v[" ++ toString n ++ "]"] else eqs
  let eqs := if r.2.2.2 = 0 then
      eqs ++ ["dydt[V." ++ component2 ++ "] = + v[" ++ toString n ++ "]"] else eqs
  ({ b with differential_equations := eqs }, none)

/-- `ReactionRules.is_dissociated`. -/
def is_dissociated (b : Builder) (n : Nat) (line : String) : Builder × Option String :=
  match preprocessing b "is_dissociated" n line ["kf", "kr"] with
  | (b, Except.error e) => (b, some e)
  | (b, Except.ok desc) =>
    if ¬ (pyIn " and " (desc.getD 1 "")) then
      (b, some ("Use 'and' in line" ++ toString n ++
        ":\ne.g., AB is dissociated into A and B"))
    else
      isDissociatedCore b n (descHead desc) (descAnd0 desc) (descAnd1 desc)

/-- Species/rate-law/accumulator block of `is_phosphorylated`.  The second
accumulator pattern is the source's literal `"dydt[V.{phosphorylated_form}]"`
string — the `f` prefix is missing on that line in the source, so the
pattern is the braces-and-all literal and can never occur in an
equation. -/
def isPhosphorylatedCore (b : Builder) (n : Nat)
    (unphosphorylated_form phosphorylated_form : String) : Builder × Option String :=
  let b := setSpecies b [unphosphorylated_form, phosphorylated_form]
  let b := { b with protein_phosphorylation := b.protein_phosphorylation ++
    [(unphosphorylated_form, phosphorylated_form)] }
  let b := { b with reactions := b.reactions ++
    ["v[" ++ toString n ++ "] = x[C.kf" ++ toString n ++ "] * y[V." ++
      unphosphorylated_form ++ "] - x[C.kr" ++ toString n ++ "] * y[V." ++
      phosphorylated_form ++ "]"] }
  let r := accum2 b.differential_equations
    (dydtPat unphosphorylated_form) (" - v[" ++ toString n ++ "]")
    "dydt[V.\x7bphosphorylated_form\x7d]" (" + v[" ++ toString n ++ "]")
  let eqs := r.1
  let eqs := if r.2.1 = 0 then
      eqs ++ ["dydt[V." ++ unphosphorylated_form ++ "] = - v[" ++ toString n ++ "]"]
    else eqs
  let eqs := if r.2.2 = 0 then
      eqs ++ ["dydt[V." ++ phosphorylated_form ++ "] = + v[" ++ toString n ++ "]"]
    else eqs
  ({ b with differential_equations := eqs }, none)

/-- `ReactionRules.is_phosphorylated`. -/
def is_phosphorylated (b : Builder) (n : Nat) (line : String) : Builder × Option String :=
  match preprocessing b "is_phosphorylated" n line ["kf", "kr"] with
  | (b, Except.error e) => (b, some e)
  | (b, Except.ok desc) =>
    if pyIn " --> " (desc.getD 1 "") then
      isPhosphorylatedCore b n (descHead desc) (descArrow1 desc)
    else
      (b, some ("line" ++ toString n ++
        ": Use '-->' to specify the name of the phosphorylated protein."))

/-- Species/rate-law/accumulator block of `is_dephosphorylated`. -/
def isDephosphorylatedCore (b : Builder) (n : Nat)
    (phosphorylated_form unphosphorylated_form : String) : Builder × Option String :=
  let b := setSpecies b [phosphorylated_form, unphosphorylated_form]
  let b := { b with protein_phosphorylation := b.protein_phosphorylation ++
    [(unphosphorylated_form, phosphorylated_form)] }
  let b := { b with reactions := b.reactions ++
    ["v[" ++ toString n ++ "] = x[C.V" ++ toString n ++ "] * y[V." ++
      phosphorylated_form ++ "] / (x[C.K" ++ toString n ++ "] + y[V." ++
      phosphorylated_form ++ "])"] }
  let r := accum2 b.differential_equations
    (dydtPat unphosphorylated_form) (" + v[" ++ toString n ++ "]")
    (dydtPat phosphorylated_form) (" - v[" ++ toString n ++ "]")
  let eqs := r.1
  let eqs := if r.2.1 = 0 then
      eqs ++ ["dydt[V." ++ unphosphorylated_form ++ "] = + v[" ++ toString n ++ "]"]
    else eqs
  let eqs := if r.2.2 = 0 then
      eqs ++ ["dydt[V." ++ phosphorylated_form ++ "] = - v[" ++ toString n ++ "]"]
    else eqs
  ({ b with differential_equations := eqs }, none)

/-- `ReactionRules.is_dephosphorylated`. -/
def is_dephosphorylated (b : Builder) (n : Nat) (line : String) : Builder × Option String :=
  match preprocessing b "is_dephosphorylated" n line ["V", "K"] with
  | (b, Except.error e) => (b, some e)
  | (b, Except.ok desc) =>
    if pyIn " --> " (desc.getD 1 "") then
      isDephosphorylatedCore b n (descHead desc) (descArrow1 desc)
    else
      (b, some ("line" ++ toString n ++
        ": Use '-->' to specify the name of the dephosphorylated protein."))

/-- Species/rate-law/accumulator block of `phosphorylate`. -/
def phosphorylateCore (b : Builder) (n : Nat)
    (kinase unphosphorylated_form phosphorylated_form : String) : Builder × Option String :=
  let b := setSpecies b [kinase, unphosphorylated_form, phosphorylated_form]
  let b := { b with protein_phosphorylation := b.protein_phosphorylation ++
    [(unphosphorylated_form, phosphorylated_form)] }
  let b := { b with reactions := b.reactions ++
    ["v[" ++ toString n ++ "] = x[C.V" ++ toString n ++ "] * y[V." ++ kinase ++
      "] * y[V." ++ unphosphorylated_form ++ "] / (x[C.K" ++ toString n ++
      "] + y[V." ++ unphosphorylated_form ++ "])"] }
  let r := accum2 b.differential_equations
    (dydtPat unphosphorylated_form) (" - v[" ++ toString n ++ "]")
    (dydtPat phosphorylated_form) (" + v[" ++ toString n ++ "]")
  let eqs := r.1
  let eqs := if r.2.1 = 0 then
      eqs ++ ["dydt[V." ++ unphosphorylated_form ++ "] = - v[" ++ toString n ++ "]"]
    else eqs
  let eqs := if r.2.2 = 0 then
      eqs ++ ["dydt[V." ++ phosphorylated_form ++ "] = + v[" ++ toString n ++ "]"]
    else eqs
  ({ b with differential_equations := eqs }, none)

/-- `ReactionRules.phosphorylate`. -/
def phosphorylate (b : Builder) (n : Nat) (line : String) : Builder × Option String :=
  match preprocessing b "phosphorylate" n line ["V", "K"] with
  | (b, Except.error e) => (b, some e)
  | (b, Except.ok desc) =>
    if pyIn " --> " (desc.getD 1 "") then
      if descArrow0 desc = descArrow1 desc then
        (b, some ("line" ++ toString n ++ ": " ++ descArrow1 desc ++
          " <- Use a different name."))
      else
        phosphorylateCore b n (descHead desc) (descArrow0 desc) (descArrow1 desc)
    else
      (b, some ("line" ++ toString n ++
        ": Use '-->' to specify the name of the phosphorylated (or activated) protein."))

/-- Species/rate-law/accumulator block of `dephosphorylate`. -/
def dephosphorylateCore (b : Builder) (n : Nat)
    (phosphatase phosphorylated_form unphosphorylated_form : String) :
    Builder × Option String :=
  let b := setSpecies b [phosphatase, phosphorylated_form, unphosphorylated_form]
  let b := { b with protein_phosphorylation := b.protein_phosphorylation ++
    [(unphosphorylated_form, phosphorylated_form)] }
  let b := { b with reactions := b.reactions ++
    ["v[" ++ toString n ++ "] = x[C.V" ++ toString n ++ "] * y[V." ++ phosphatase ++
      "] * y[V." ++ phosphorylated_form ++ "] / (x[C.K" ++ toString n ++
      "] + y[V." ++ phosphorylated_form ++ "])"] }
  let r := accum2 b.differential_equations
    (dydtPat phosphorylated_form) (" - v[" ++ toString n ++ "]")
    (dydtPat unphosphorylated_form) (" + v[" ++ toString n ++ "]")
  let eqs := r.1
  let eqs := if r.2.1 = 0 then
      eqs ++ ["dydt[V." ++ phosphorylated_form ++ "] = - v[" ++ toString n ++ "]"]
    else eqs
  let eqs := if r.2.2 = 0 then
      eqs ++ ["dydt[V." ++ unphosphorylated_form ++ "] = + v[" ++ toString n ++ "]"]
    else eqs
  ({ b with differential_equations := eqs }, none)

/-- `ReactionRules.dephosphorylate`. -/
def dephosphorylate (b : Builder) (n : Nat) (line : String) : Builder × Option String :=
  match preprocessing b "dephosphorylate" n line ["V", "K"] with
  | (b, Except.error e) => (b, some e)
  | (b, Except.ok desc) =>
    if pyIn " --> " (desc.getD 1 "") then
      if descArrow0 desc = descArrow1 desc then
        (b, some ("line" ++ toString n ++ ": " ++ descArrow1 desc ++
          " <- Use a different name."))
      else
        dephosphorylateCore b n (descHead desc) (descArrow0 desc) (descArrow1 desc)
    else
      (b, some ("line" ++ toString n ++
        ": Use '-->' to specify the name of the dephosphorylated (or deactivated) protein."))

/-- Absence of the repressor clause in `transcribe`: the score list of
`_word2scores(", repressed by", description[1])` is empty or its maximum is
below `1.0`. -/
def transcribeNoRep (d1 : String) : Bool :=
  (word2scores ", repressed by" d1).isEmpty || pyMaxD (word2scores ", repressed by" d1) < 1

/-- When the repressor clause is absent, `transcribe` removes the `KF` and
`nF` parameters that `_set_params` just registered (`list.remove`: first
occurrence; both are present at this point in every reachable run). -/
def removeRepressorParams (b : Builder) (n : Nat) (d1 : String) : Builder :=
  if transcribeNoRep d1 then
    { b with parameters :=
      (b.parameters.erase ("KF" ++ toString n)).erase ("nF" ++ toString n) }
  else b

/-- The `(mRNA, repressor)` pair extracted from `description[1]`. -/
def transcribeMRNArep (d1 : String) : String × Option String :=
  if transcribeNoRep d1 then (pyStripWS d1, none)
  else (pyStripWS ((pySplitOn d1 ", repressed by").getD 0 ""),
    some (pyStripWS ((pySplitOn d1 ", repressed by").getD 1 "")))

/-- Registration of the optional repressor species. -/
def setSpeciesRep (b : Builder) (rep : Option String) : Builder :=
  match rep with
  | none => b
  | some r => setSpecies b [r]

/-- The optional repressor term closing the Hill-law denominator. -/
def repTailOf (n : Nat) (rep : Option String) : String :=
  match rep with
  | none => ")"
  | some r => " + (y[V." ++ r ++ "] / x[C.KF" ++ toString n ++ "]) ** x[C.nF" ++
      toString n ++ "])"

/-- Species/rate-law/accumulator block of `transcribe` (single TF or the
AND-gate according to `" and " in description[0]`). -/
def transcribeCore (b : Builder) (n : Nat) (d0 mRNA : String) (rep : Option String) :
    Builder × Option String :=
  let b :=
    if ¬ (pyIn " and " d0) then
      let b := setSpeciesRep (setSpecies b [mRNA, pyStrip " " d0]) rep
      { b with reactions := b.reactions ++
        ["v[" ++ toString n ++ "] = x[C.V" ++ toString n ++ "] * y[V." ++ pyStrip " " d0 ++
          "] ** x[C.n" ++ toString n ++ "] / (x[C.K" ++ toString n ++ "] ** x[C.n" ++
          toString n ++ "] + y[V." ++ pyStrip " " d0 ++ "] ** x[C.n" ++ toString n ++ "]" ++
          repTailOf n rep] }
    else
      let b := setSpeciesRep
        (setSpecies b [mRNA, pyStrip " " ((pySplitOn d0 " and ").getD 0 ""),
          pyStrip " " ((pySplitOn d0 " and ").getD 1 "")]) rep
      { b with reactions := b.reactions ++
        ["v[" ++ toString n ++ "] = x[C.V" ++ toString n ++ "] * (y[V." ++
          pyStrip " " ((pySplitOn d0 " and ").getD 0 "") ++ "]*y[V." ++
          pyStrip " " ((pySplitOn d0 " and ").getD 1 "") ++ "]) ** x[C.n" ++ toString n ++
          "] / (x[C.K" ++ toString n ++ "] ** x[C.n" ++ toString n ++ "] + (y[V." ++
          pyStrip " " ((pySplitOn d0 " and ").getD 0 "") ++ "]*y[V." ++
          pyStrip " " ((pySplitOn d0 " and ").getD 1 "") ++ "]) ** x[C.n" ++ toString n ++
          "]" ++ repTailOf n rep] }
  let r := accum1 b.differential_equations (dydtPat mRNA) (" + v[" ++ toString n ++ "]")
  let eqs := if r.2 = 0 then
      r.1 ++ ["dydt[V." ++ mRNA ++ "] = + v[" ++ toString n ++ "]"] else r.1
  ({ b with differential_equations := eqs }, none)

/-- `ReactionRules.transcribe`.  The repressor clause is detected through
`_word2scores`; when absent, the `KF`/`nF` parameters registered by the
preprocessing are removed again, and a multi-word mRNA name raises. -/
def transcribe (b : Builder) (n : Nat) (line : String) : Builder × Option String :=
  match preprocessing b "transcribe" n line ["V", "K", "n", "KF", "nF"] with
  | (b, Except.error e) => (b, some e)
  | (b, Except.ok desc) =>
    if transcribeNoRep (desc.getD 1 "") ∧
        pyIn " " (transcribeMRNArep (desc.getD 1 "")).1 then
      (removeRepressorParams b n (desc.getD 1 ""),
        some ("line" ++ toString n ++
          ": Add ', repressed by XXX' to describe negative regulation from XXX."))
    else
      transcribeCore (removeRepressorParams b n (desc.getD 1 "")) n (desc.getD 0 "")
        (transcribeMRNArep (desc.getD 1 "")).1 (transcribeMRNArep (desc.getD 1 "")).2

/-- `description[1]` as `transcribe` sees it on a clause-free line: the
stripped sentence split at the longest matching trigger phrase. -/
def transcribeD1 (b : Builder) (line : String) : String :=
  (pySplitOn (pyStripWS (lineCutOf line))
    ((maxByLen (hitWords b.rule_words "transcribe" line)).getD "")).getD 1 ""

/-- Species/rate-law/accumulator block of `is_translated`. -/
def isTranslatedCore (b : Builder) (n : Nat) (mRNA protein : String) :
    Builder × Option String :=
  let b := setSpecies b [mRNA, protein]
  let b := { b with reactions := b.reactions ++
    ["v[" ++ toString n ++ "] = x[C.kf" ++ toString n ++ "] * y[V." ++ mRNA ++ "]"] }
  let r := accum1 b.differential_equations (dydtPat protein) (" + v[" ++ toString n ++ "]")
  let eqs := if r.2 = 0 then
      r.1 ++ ["dydt[V." ++ protein ++ "] = + v[" ++ toString n ++ "]"] else r.1
  ({ b with differential_equations := eqs }, none)

/-- `ReactionRules.is_translated`. -/
def is_translated (b : Builder) (n : Nat) (line : String) : Builder × Option String :=
  match preprocessing b "is_translated" n line ["kf"] with
  | (b, Except.error e) => (b, some e)
  | (b, Except.ok desc) =>
    isTranslatedCore b n (descHead desc) (pyStrip " " (desc.getD 1 ""))

/-- Species/rate-law/accumulator block of `synthesize`. -/
def synthesizeCore (b : Builder) (n : Nat) (catalyst product : String) :
    Builder × Option String :=
  let b := setSpecies b [catalyst, product]
  let b := { b with reactions := b.reactions ++
    ["v[" ++ toString n ++ "] = x[C.kf" ++ toString n ++ "] * y[V." ++ catalyst ++ "]"] }
  let r := accum1 b.differential_equations (dydtPat product) (" + v[" ++ toString n ++ "]")
  let eqs := if r.2 = 0 then
      r.1 ++ ["dydt[V." ++ product ++ "] = + v[" ++ toString n ++ "]"] else r.1
  ({ b with differential_equations := eqs }, none)

/-- `ReactionRules.synthesize`. -/
def synthesize (b : Builder) (n : Nat) (line : String) : Builder × Option String :=
  match preprocessing b "synthesize" n line ["kf"] with
  | (b, Except.error e) => (b, some e)
  | (b, Except.ok desc) =>
    synthesizeCore b n (descHead desc) (pyStrip " " (desc.getD 1 ""))

/-- Species/rate-law/accumulator block of `is_synthesized`. -/
def isSynthesizedCore (b : Builder) (n : Nat) (chem : String) : Builder × Option String :=
  let b := setSpecies b [chem]
  let b := { b with reactions := b.reactions ++
    ["v[" ++ toString n ++ "] = x[C.kf" ++ toString n ++ "]"] }
  let r := accum1 b.differential_equations (dydtPat chem) (" + v[" ++ toString n ++ "]")
  let eqs := if r.2 = 0 then
      r.1 ++ ["dydt[V." ++ chem ++ "] = + v[" ++ toString n ++ "]"] else r.1
  ({ b with differential_equations := eqs }, none)

/-- `ReactionRules.is_synthesized`. -/
def is_synthesized (b : Builder) (n : Nat) (line : String) : Builder × Option String :=
  match preprocessing b "is_synthesized" n line ["kf"] with
  | (b, Except.error e) => (b, some e)
  | (b, Except.ok desc) => isSynthesizedCore b n (descHead desc)

/-- Species/rate-law/accumulator block of `degrade`. -/
def degradeCore (b : Builder) (n : Nat) (protease protein : String) :
    Builder × Option String :=
  let b := setSpecies b [protease, protein]
  let b := { b with reactions := b.reactions ++
    ["v[" ++ toString n ++ "] = x[C.kf" ++ toString n ++ "] * y[V." ++ protease ++ "]"] }
  let r := accum1 b.differential_equations (dydtPat protein) (" - v[" ++ toString n ++ "]")
  let eqs := if r.2 = 0 then
      r.1 ++ ["dydt[V." ++ protein ++ "] = - v[" ++ toString n ++ "]"] else r.1
  ({ b with differential_equations := eqs }, none)

/-- `ReactionRules.degrade`. -/
def degrade (b : Builder) (n : Nat) (line : String) : Builder × Option String :=
  match preprocessing b "degrade" n line ["kf"] with
  | (b, Except.error e) => (b, some e)
  | (b, Except.ok desc) =>
    degradeCore b n (descHead desc) (pyStrip " " (desc.getD 1 ""))

/-- Species/rate-law/accumulator block of `is_degraded`. -/
def isDegradedCore (b : Builder) (n : Nat) (chem : String) : Builder × Option String :=
  let b := setSpecies b [chem]
  let b := { b with reactions := b.reactions ++
    ["v[" ++ toString n ++ "] = x[C.kf" ++ toString n ++ "] * y[V." ++ chem ++ "]"] }
  let r := accum1 b.differential_equations (dydtPat chem) (" - v[" ++ toString n ++ "]")
  let eqs := if r.2 = 0 then
      r.1 ++ ["dydt[V." ++ chem ++ "] = - v[" ++ toString n ++ "]"] else r.1
  ({ b with differential_equations := eqs }, none)

/-- `ReactionRules.is_degraded`. -/
def is_degraded (b : Builder) (n : Nat) (line : String) : Builder × Option String :=
  match preprocessing b "is_degraded" n line ["kf"] with
  | (b, Except.error e) => (b, some e)
  | (b, Except.ok desc) => isDegradedCore b n (descHead desc)

/-- The compartment-volume extraction of `is_translocated` (a Python unpack
error when the parenthesised part does not have exactly two components). -/
def translocVolumes (d1 : String) : Except String (String × String) :=
  if pyIn "(" d1 ∧ pyIn ")" d1 then
    match pySplitOn ((pySplitOn (pyLast (pySplitOn d1 "(")) ")").getD 0 "") "," with
    | [p, q] =>
      if ¬ (isFloat (pyStrip " " p)) ∨ ¬ (isFloat (pyStrip " " q)) then
        Except.error "pre_volume and post_volume must be float or int."
      else Except.ok (p, q)
    | _ => Except.error "ValueError: cannot unpack compartment volumes"
  else Except.ok ("1", "1")

/-- Species/rate-law/accumulator block of `is_translocated` (the reaction
appended and then replaced when the volumes differ is modelled by the
equivalent conditional append). -/
def isTranslocatedCore (b : Builder) (n : Nat)
    (pre_translocation post_translocation preV postV : String) :
    Builder × Option String :=
  let differ : Bool := decide (parseFloat (pyStrip " " preV) ≠ parseFloat (pyStrip " " postV))
  let b := setSpecies b [pre_translocation, post_translocation]
  let rxn :=
    if differ then
      "v[" ++ toString n ++ "] = x[C.kf" ++ toString n ++ "] * y[V." ++
        pre_translocation ++ "] - x[C.kr" ++ toString n ++ "] * (" ++
        pyStripWS postV ++ " / " ++ pyStripWS preV ++ ") * y[V." ++
        post_translocation ++ "]"
    else
      "v[" ++ toString n ++ "] = x[C.kf" ++ toString n ++ "] * y[V." ++
        pre_translocation ++ "] - x[C.kr" ++ toString n ++ "] * y[V." ++
        post_translocation ++ "]"
  let b := { b with reactions := b.reactions ++ [rxn] }
  let volTail : String :=
    if differ then " * (" ++ pyStripWS preV ++ " / " ++ pyStripWS postV ++ ")" else ""
  let r := accum2 b.differential_equations
    (dydtPat pre_translocation) (" - v[" ++ toString n ++ "]")
    (dydtPat post_translocation) (" + v[" ++ toString n ++ "]" ++ volTail)
  let eqs := r.1
  let eqs := if r.2.1 = 0 then
      eqs ++ ["dydt[V." ++ pre_translocation ++ "] = - v[" ++ toString n ++ "]"]
    else eqs
  let eqs := if r.2.2 = 0 then
      eqs ++ ["dydt[V." ++ post_translocation ++ "] = + v[" ++ toString n ++ "]" ++ volTail]
    else eqs
  ({ b with differential_equations := eqs }, none)

/-- `ReactionRules.is_translocated`. -/
def is_translocated (b : Builder) (n : Nat) (line : String) : Builder × Option String :=
  match preprocessing b "is_translocated" n line ["kf", "kr"] with
  | (b, Except.error e) => (b, some e)
  | (b, Except.ok desc) =>
    if pyIn " --> " (desc.getD 1 "") then
      if descHead desc = descArrow1 desc then
        (b, some ("line" ++ toString n ++ ": " ++ descArrow1 desc ++
          " <- Use a different name."))
      else
        match translocVolumes (desc.getD 1 "") with
        | Except.error e => (b, some e)
        | Except.ok vols => isTranslocatedCore b n (descHead desc) (descArrow1 desc) vols.1 vols.2
    else
      (b, some ("line" ++ toString n ++
        ": Use '-->' to specify the name of the species after translocation."))

/-- The `while "  " in line: line = line.replace("  ", " ")` loop of
`create_ode`.  Every replacement strictly shortens the string, so
`s.length` rounds of fuel always reach the fixpoint. -/
def collapseF (pat rep : String) : Nat → String → String
  | 0, s => s
  | fuel + 1, s => if pyIn pat s then collapseF pat rep fuel (pyReplace s pat rep) else s

def collapseSpaces (s : String) : String := collapseF "  " " " s.toList.length s

/-- Per-line normalisation of `create_ode`: collapse runs of spaces, cut at
the first `#`, strip trailing spaces (the trailing newline of `readlines`
survives). -/
def normalize (raw : String) : String :=
  pyRstrip " " ((pySplitOn (collapseSpaces raw) "#").getD 0 "")

/-- 1-based positions (as strings) of raw lines equal to `x`
(`create_ode`'s duplicate-line enumeration). -/
def dupPositionsAux (x : String) (i : Nat) : List String → List String
  | [] => []
  | h :: t => (if h = x then [toString i] else []) ++ dupPositionsAux x (i + 1) t

def dupPositions (lines : List String) (x : String) : List String :=
  dupPositionsAux x 1 lines

/-- `line.split(":")[-1].strip()` of the `@sim tspan` branch. -/
def tspanInfo (line : String) : String := pyStripWS (pyLast (pySplitOn line ":"))

/-- The `@sim` annotation block of `create_ode` (after
`line.lstrip("@sim ")`, a character-set strip as in Python). -/
def processSim (b : Builder) (line : String) : Builder × Option String :=
  if pyCountSub line ":" ≠ 1 then (b, some "Missing colon")
  else if pyStartsWith line "tspan" then
    if pyIn "[" (tspanInfo line) ∧ pyIn "]" (tspanInfo line) then
      match pySplitOn ((pySplitOn (pyLast (pySplitOn (tspanInfo line) "[")) "]").getD 0 "") "," with
      | [t0, tf] =>
        if pyIsDecimal (pyStrip " " t0) ∧ pyIsDecimal (pyStrip " " tf) then
          ({ b with sim_tspan := b.sim_tspan ++ [t0, tf] }, none)
        else (b, some "@sim tspan: [t0, tf] must be a list of integers.")
      | _ => (b, some "ValueError: cannot unpack tspan")
    else
      (b, some "tspan must be a two element vector [t0, tf] specifying the initial and final times.")
  else if pyStartsWith line "unperturbed" then
    ({ b with sim_unperturbed := b.sim_unperturbed ++ pyStripWS (pyLast (pySplitOn line ":")) },
      none)
  else if pyStartsWith line "condition " then
    ({ b with sim_conditions := b.sim_conditions ++ [pySplitOn (pyLstrip "condition " line) ":"] },
      none)
  else
    (b, some "Available options are: '@sim tspan:', '@sim unperturbed:' or '@sim condition XXX:'.")

/-- The `exec("self." + reaction_rule + "(line_num, line)")` dispatch; the
rule names are exactly the fixed keys of `rule_words` (registration can
only extend the phrase lists, never the key set). -/
def callRule (b : Builder) (rule : String) (n : Nat) (line : String) :
    Builder × Option String :=
  if rule = "dimerize" then dimerize b n line
  else if rule = "bind" then bind b n line
  else if rule = "is_dissociated" then is_dissociated b n line
  else if rule = "is_phosphorylated" then is_phosphorylated b n line
  else if rule = "is_dephosphorylated" then is_dephosphorylated b n line
  else if rule = "phosphorylate" then phosphorylate b n line
  else if rule = "dephosphorylate" then dephosphorylate b n line
  else if rule = "transcribe" then transcribe b n line
  else if rule = "is_translated" then is_translated b n line
  else if rule = "synthesize" then synthesize b n line
  else if rule = "is_synthesized" then is_synthesized b n line
  else if rule = "degrade" then degrade b n line
  else if rule = "is_degraded" then is_degraded b n line
  else if rule = "is_translocated" then is_translocated b n line
  else (b, some ("AttributeError: " ++ rule))

/-- First rule one of whose preposition-stripped phrases occurs in the
line (the dispatch loop of `create_ode`). -/
def findMatchingRule (rules : List (String × List String)) (line : String) : Option String :=
  (rules.find? (fun rw => rw.2.any (fun w => pyIn (removePrepositions w) line))).map
    (fun rw => rw.1)

/-- The `ValueError` message `create_ode` raises when no rule matches: the
line text plus, when the suggester found one, the suggested phrase.  The
matched substring (`unregistered_rule.original`) is computed but not part
of the message (reaction_rules.py lines 1195-1203). -/
def unregisteredMsg (n : Nat) (line : String) (expected : Option String) : String :=
  "Unregistered words in line" ++ toString n ++ ": " ++ line ++
    (match expected with
     | some w => "\nMaybe: '" ++ w ++ "'."
     | none => "")

/-- One iteration of `create_ode`'s line loop.  `lines` is the full raw
`readlines` result (the duplicate check counts the normalised line among
the raw ones), `n` the 1-based line number. -/
def processLine (lines : List String) (b : Builder) (n : Nat) (raw : String) :
    Builder × Option String :=
  let line := normalize raw
  if pyStripWS line = "" then (b, none)
  else if pyCount line lines > 1 then
    (b, some ("Reaction '" ++ line ++ "' is duplicated in lines " ++
      pyJoin ", " (dupPositions lines line)))
  else if pyStartsWith line "@obs " then
    ({ b with obs_desc := b.obs_desc ++ [pySplitOn (pyLstrip "@obs " line) "="] }, none)
  else if pyStartsWith line "@sim " then
    processSim b (pyLstrip "@sim " line)
  else
    match findMatchingRule b.rule_words line with
    | some rule => callRule b rule n line
    | none =>
      (b, some (unregisteredMsg n line (getPartialSimilarity b.rule_words line).expected))

/-- The loop of `create_ode` over all lines; the first raised error aborts
the loop with the state accumulated so far (a propagating exception leaves
the object's collections as they are). -/
def createOdeAux (lines : List String) : Builder → Nat → List String → Builder × Option String
  | b, _, [] => (b, none)
  | b, n, raw :: rest =>
    match processLine lines b n raw with
    | (b', none) => createOdeAux lines b' (n + 1) rest
    | (b', some e) => (b', some e)

/-- `ReactionRules.create_ode`, with the file contents passed as the list
of raw lines (each still carrying its trailing newline, as from Python's
`readlines`). -/
def createOde (b : Builder) (lines : List String) : Builder × Option String :=
  createOdeAux lines b 1 lines

/-- The if/elif condition of `check_species_names` on one pair from the
list against one member of the deduplicated set. -/
def pairConflict (one another : String × String) : Bool :=
  (one.1 = another.1 ∧ one.2 ≠ another.2) ∨ (one.1 ≠ another.1 ∧ one.2 = another.2)

/-- `ReactionRules.check_species_names`: first pair of odd multiplicity
that conflicts with a recorded distinct pair raises, naming the two
differing names. -/
def checkSpeciesNames (pairs : List (String × String)) : Option String :=
  (pairs.filterMap (fun one =>
    if (pairs.count one) % 2 = 1 then
      ((firstDedup pairs).find? (fun another => pairConflict one another)).map
        (fun another =>
          "These species names should be same: " ++
          (if one.1 ≠ another.1 then "'" ++ one.1 ++ "' and '" ++ another.1 ++ "'."
           else "'" ++ one.2 ++ "' and '" ++ another.2 ++ "'."))
    else none)).head?

/-- `Text2Model.register_word` (the lexicon mutation; the surrounding
object state is untouched on success). -/
def registerWord (b : Builder) (rxnRule myWord : String) : Builder × Option String :=
  if rxnRule ∉ b.rule_words.map Prod.fst then
    (b, some (rxnRule ++ " is not defined in reaction_rules.\nChoose a reaction rule from " ++
      pyJoin ", " (b.rule_words.map Prod.fst)))
  else
    match b.rule_words.find? (fun rw => rw.2.any (fun w =>
        pyIn (" " ++ myWord) w && pyIn w (" " ++ myWord))) with
    | some rw =>
      (b, some ("Cannot register '" ++ myWord ++ "'. Currently, it is used in the rule: " ++
        rw.1))
    | none =>
      ({ b with rule_words := b.rule_words.map (fun rw =>
          if rw.1 = rxnRule then (rw.1, rw.2 ++ [" " ++ myWord]) else rw) }, none)

/-- `create_ode` followed by `check_species_names`, as `Text2Model.convert`
invokes them. -/
def buildModel (lines : List String) : Builder × Option String :=
  match createOde initialBuilder lines with
  | (b, some e) => (b, some e)
  | (b, none) => (b, checkSpeciesNames b.protein_phosphorylation)

/-- Character position of the first occurrence of `sub` in `s`
(`s.length + 1` when absent); used only to state the spec's textual
first-mention order. -/
def firstMentionPosAux (sub : List Char) (i : Nat) : List Char → Nat
  | [] => if sub.isPrefixOf [] then i else i + 1
  | c :: t => if sub.isPrefixOf (c :: t) then i else firstMentionPosAux sub (i + 1) t

def firstMentionPos (s sub : String) : Nat := firstMentionPosAux sub.toList 0 s.toList


/-- The species registry only ever grows by appending, and a
duplicate-free registry stays duplicate-free. -/
def SpExt (b b' : Builder) : Prop :=
  (∃ t, b'.species = b.species ++ t) ∧ (b.species.Nodup → b'.species.Nodup)

theorem commonPrefixLen_le_left : ∀ a b : List Char, commonPrefixLen a b ≤ a.length
  | [], _ => by simp [commonPrefixLen]
  | _ :: _, [] => by simp [commonPrefixLen]
  | a :: as, b :: bs => by
    by_cases h : a = b <;>
      simp [commonPrefixLen, h, Nat.succ_le_succ (commonPrefixLen_le_left as bs)]

theorem commonPrefixLen_le_right : ∀ a b : List Char, commonPrefixLen a b ≤ b.length
  | [], _ => by simp [commonPrefixLen]
  | _ :: _, [] => by simp [commonPrefixLen]
  | a :: as, b :: bs => by
    by_cases h : a = b <;>
      simp [commonPrefixLen, h, Nat.succ_le_succ (commonPrefixLen_le_right as bs)]

theorem commonPrefixLen_self : ∀ a : List Char, commonPrefixLen a a = a.length
  | [] => by simp [commonPrefixLen]
  | a :: as => by simp [commonPrefixLen, commonPrefixLen_self as]

theorem take_commonPrefixLen_eq :
    ∀ a b : List Char, a.take (commonPrefixLen a b) = b.take (commonPrefixLen a b)
  | [], _ => by simp [commonPrefixLen]
  | _ :: _, [] => by simp [commonPrefixLen]
  | a :: as, b :: bs => by
    by_cases h : a = b <;> simp [commonPrefixLen, h, take_commonPrefixLen_eq as bs]

theorem foldl_inv {α β : Type} {P : β → Prop} {f : β → α → β}
    (hstep : ∀ b x, P b → P (f b x)) :
    ∀ (l : List α) (init : β), P init → P (l.foldl f init) := by
  intro l
  induction l with
  | nil => intro init h; exact h
  | cons x t ih => intro init h; exact ih _ (hstep _ _ h)

theorem foldl_k_mono {α : Type} {f : Nat × Nat × Nat → α → Nat × Nat × Nat}
    (hstep : ∀ b x, b.2.2 ≤ (f b x).2.2) :
    ∀ (l : List α) (init : Nat × Nat × Nat), init.2.2 ≤ (l.foldl f init).2.2 := by
  intro l
  induction l with
  | nil => intro init; exact le_rfl
  | cons x t ih => intro init; exact le_trans (hstep init x) (ih (f init x))

theorem foldl_k_dom {α : Type} {f : Nat × Nat × Nat → α → Nat × Nat × Nat}
    {cand : α → Nat}
    (hstep : ∀ b x, b.2.2 ≤ (f b x).2.2) (hcand : ∀ b x, cand x ≤ (f b x).2.2) :
    ∀ (l : List α) (init : Nat × Nat × Nat) (x : α), x ∈ l →
      cand x ≤ (l.foldl f init).2.2 := by
  intro l
  induction l with
  | nil => intro init x hx; cases hx
  | cons y t ih =>
    intro init x hx
    rcases List.mem_cons.mp hx with h | h
    · subst h
      exact le_trans (hcand init x) (foldl_k_mono hstep t (f init x))
    · exact ih (f init y) x h

theorem updBest_k_mono (a b : List Char) (best : Nat × Nat × Nat) (i j : Nat) :
    best.2.2 ≤ (updBest a b best i j).2.2 := by
  unfold updBest
  split
  · exact le_of_lt (by assumption)
  · exact le_rfl

theorem updBest_k_cand (a b : List Char) (best : Nat × Nat × Nat) (i j : Nat) :
    candK a b i j ≤ (updBest a b best i j).2.2 := by
  unfold updBest
  split
  · exact le_rfl
  · exact le_of_not_lt (by assumption)

theorem foldJ_k_mono (a b : List Char) (i : Nat) (best : Nat × Nat × Nat) :
    best.2.2 ≤ (foldJ a b i best).2.2 :=
  foldl_k_mono (fun best j => updBest_k_mono a b best i j) _ best

theorem foldJ_k_dom (a b : List Char) (i j : Nat) (best : Nat × Nat × Nat)
    (hj : j < b.length) : candK a b i j ≤ (foldJ a b i best).2.2 :=
  foldl_k_dom (fun best j => updBest_k_mono a b best i j)
    (fun best j => updBest_k_cand a b best i j) _ best j (List.mem_range.mpr hj)

/-- Any block inside the ranges is dominated by the recorded best size. -/
theorem bestTriple_dom (a b : List Char) (i j : Nat) (hi : i < a.length)
    (hj : j < b.length) : candK a b i j ≤ (bestTriple a b).2.2 :=
  foldl_k_dom (fun best i => foldJ_k_mono a b i best)
    (fun best i => foldJ_k_dom a b i j best hj) _ _ i (List.mem_range.mpr hi)

/-- The recorded best is either the initial `(0, 0, 0)` or an actual block. -/
theorem bestTriple_valid (a b : List Char) :
    bestTriple a b = (0, 0, 0) ∨
      (bestTriple a b).2.2 = candK a b (bestTriple a b).1 (bestTriple a b).2.1 := by
  have h : ∀ best : Nat × Nat × Nat,
      (best = (0, 0, 0) ∨ best.2.2 = candK a b best.1 best.2.1) →
      ∀ i, ((List.range b.length).foldl (fun best j => updBest a b best i j) best) = (0,0,0) ∨
        ((List.range b.length).foldl (fun best j => updBest a b best i j) best).2.2 =
          candK a b ((List.range b.length).foldl (fun best j => updBest a b best i j) best).1
            ((List.range b.length).foldl (fun best j => updBest a b best i j) best).2.1 := by
    intro best hbest i
    refine foldl_inv (P := fun t => t = (0,0,0) ∨ t.2.2 = candK a b t.1 t.2.1) ?_ _ best hbest
    intro t j ht
    unfold updBest
    split
    · right; rfl
    · exact ht
  refine foldl_inv (P := fun t => t = (0,0,0) ∨ t.2.2 = candK a b t.1 t.2.1) ?_ _ _ (Or.inl rfl)
  intro t i ht
  exact h t ht i

/-- Bounds used for termination of `matchTotal` and for the ratio lemmas. -/
theorem bestTriple_bounds (a b : List Char) (h : (bestTriple a b).2.2 ≠ 0) :
    (bestTriple a b).2.2 = candK a b (bestTriple a b).1 (bestTriple a b).2.1 ∧
    (bestTriple a b).1 + (bestTriple a b).2.2 ≤ a.length ∧
    (bestTriple a b).2.1 + (bestTriple a b).2.2 ≤ b.length := by
  rcases bestTriple_valid a b with hv | hv
  · exact absurd (by rw [hv]) h
  · refine ⟨hv, ?_, ?_⟩
    · have h1 : candK a b (bestTriple a b).1 (bestTriple a b).2.1 ≤
          a.length - (bestTriple a b).1 := by
        have := commonPrefixLen_le_left (a.drop (bestTriple a b).1)
          (b.drop (bestTriple a b).2.1)
        simpa [candK, List.length_drop] using this
      omega
    · have h2 : candK a b (bestTriple a b).1 (bestTriple a b).2.1 ≤
          b.length - (bestTriple a b).2.1 := by
        have := commonPrefixLen_le_right (a.drop (bestTriple a b).1)
          (b.drop (bestTriple a b).2.1)
        simpa [candK, List.length_drop] using this
      omega


theorem matchTotalF_nil (fuel : Nat) : matchTotalF fuel [] [] = 0 := by
  cases fuel with
  | zero => rfl
  | succ f =>
    rw [matchTotalF]
    norm_num [bestTriple]

theorem matchTotal_nil : matchTotal [] [] = 0 := matchTotalF_nil 0

theorem matchTotalF_le : ∀ (fuel : Nat) (a b : List Char),
    matchTotalF fuel a b ≤ a.length ∧ matchTotalF fuel a b ≤ b.length := by
  intro fuel
  induction fuel with
  | zero => intro a b; exact ⟨Nat.zero_le _, Nat.zero_le _⟩
  | succ n ih =>
    intro a b
    rw [matchTotalF]
    split
    · exact ⟨Nat.zero_le _, Nat.zero_le _⟩
    · rename_i h
      obtain ⟨hk, hia, hjb⟩ := bestTriple_bounds a b h
      have c1 := ih (a.take (bestTriple a b).1) (b.take (bestTriple a b).2.1)
      have c2 := ih (a.drop ((bestTriple a b).1 + (bestTriple a b).2.2))
        (b.drop ((bestTriple a b).2.1 + (bestTriple a b).2.2))
      simp only [List.length_take, List.length_drop] at c1 c2
      omega

theorem matchTotal_le_left (a b : List Char) : matchTotal a b ≤ a.length :=
  (matchTotalF_le (a.length + b.length) a b).1

theorem matchTotal_le_right (a b : List Char) : matchTotal a b ≤ b.length :=
  (matchTotalF_le (a.length + b.length) a b).2

theorem bestTriple_self (a : List Char) (h : a ≠ []) :
    bestTriple a a = (0, 0, a.length) := by
  have hlen : 0 < a.length := List.length_pos.mpr h
  have hdom := bestTriple_dom a a 0 0 hlen hlen
  have hcand : candK a a 0 0 = a.length := by
    simp [candK, commonPrefixLen_self]
  rw [hcand] at hdom
  rcases bestTriple_valid a a with hv | hv
  · rw [hv] at hdom
    exact absurd (Nat.le_zero.mp hdom) hlen.ne'
  · have hle1 : candK a a (bestTriple a a).1 (bestTriple a a).2.1 ≤
        a.length - (bestTriple a a).1 := by
      have := commonPrefixLen_le_left (a.drop (bestTriple a a).1)
        (a.drop (bestTriple a a).2.1)
      simpa [candK, List.length_drop] using this
    have hle2 : candK a a (bestTriple a a).1 (bestTriple a a).2.1 ≤
        a.length - (bestTriple a a).2.1 := by
      have := commonPrefixLen_le_right (a.drop (bestTriple a a).1)
        (a.drop (bestTriple a a).2.1)
      simpa [candK, List.length_drop] using this
    have hi : (bestTriple a a).1 = 0 := by omega
    have hj : (bestTriple a a).2.1 = 0 := by omega
    have hk : (bestTriple a a).2.2 = a.length := by omega
    exact Prod.ext hi (Prod.ext hj hk)

theorem matchTotalF_self (fuel : Nat) (a : List Char) (h : a ≠ []) :
    matchTotalF (fuel + 1) a a = a.length := by
  have hbt := bestTriple_self a h
  have hlen : 0 < a.length := List.length_pos.mpr h
  rw [matchTotalF, hbt]
  rw [if_neg (show ¬ (((0, 0, a.length) : Nat × Nat × Nat).2.2 = 0) by simpa using hlen.ne')]
  simp [matchTotalF_nil]

theorem matchTotal_self (a : List Char) : matchTotal a a = a.length := by
  rcases eq_or_ne a [] with rfl | h
  · exact matchTotalF_nil 0
  · unfold matchTotal
    have hlen : 0 < a.length := List.length_pos.mpr h
    have h2 : a.length + a.length = (a.length + a.length - 1) + 1 := by omega
    rw [h2]
    exact matchTotalF_self _ a h

theorem matchTotalF_full : ∀ (fuel : Nat) (a b : List Char), a.length + b.length ≤ fuel →
    matchTotalF fuel a b = a.length → a.length = b.length → a = b := by
  intro fuel
  induction fuel with
  | zero =>
    intro a b h _ _
    have ha : a = [] := List.length_eq_zero.mp (by omega)
    have hb : b = [] := List.length_eq_zero.mp (by omega)
    rw [ha, hb]
  | succ n ih =>
    intro a b hlen hM hab
    rw [matchTotalF] at hM
    split at hM
    · have ha : a = [] := List.length_eq_zero.mp hM.symm
      have hb : b = [] := List.length_eq_zero.mp (by omega)
      rw [ha, hb]
    · rename_i h
      obtain ⟨hk, hia, hjb⟩ := bestTriple_bounds a b h
      have m1l := (matchTotalF_le n (a.take (bestTriple a b).1)
        (b.take (bestTriple a b).2.1)).1
      have m1r := (matchTotalF_le n (a.take (bestTriple a b).1)
        (b.take (bestTriple a b).2.1)).2
      have m2l := (matchTotalF_le n (a.drop ((bestTriple a b).1 + (bestTriple a b).2.2))
        (b.drop ((bestTriple a b).2.1 + (bestTriple a b).2.2))).1
      have m2r := (matchTotalF_le n (a.drop ((bestTriple a b).1 + (bestTriple a b).2.2))
        (b.drop ((bestTriple a b).2.1 + (bestTriple a b).2.2))).2
      simp only [List.length_take, List.length_drop] at m1l m1r m2l m2r
      have hpreM : matchTotalF n (a.take (bestTriple a b).1) (b.take (bestTriple a b).2.1) =
          (a.take (bestTriple a b).1).length := by
        simp only [List.length_take]
        omega
      have hpre : a.take (bestTriple a b).1 = b.take (bestTriple a b).2.1 := by
        refine ih _ _ (by simp only [List.length_take]; omega) hpreM ?_
        simp only [List.length_take]
        omega
      have hsufM : matchTotalF n (a.drop ((bestTriple a b).1 + (bestTriple a b).2.2))
          (b.drop ((bestTriple a b).2.1 + (bestTriple a b).2.2)) =
          (a.drop ((bestTriple a b).1 + (bestTriple a b).2.2)).length := by
        simp only [List.length_drop]
        omega
      have hsuf : a.drop ((bestTriple a b).1 + (bestTriple a b).2.2) =
          b.drop ((bestTriple a b).2.1 + (bestTriple a b).2.2) := by
        refine ih _ _ (by simp only [List.length_drop]; omega) hsufM ?_
        simp only [List.length_drop]
        omega
      have hmid : (a.drop (bestTriple a b).1).take (bestTriple a b).2.2 =
          (b.drop (bestTriple a b).2.1).take (bestTriple a b).2.2 := by
        have := take_commonPrefixLen_eq (a.drop (bestTriple a b).1)
          (b.drop (bestTriple a b).2.1)
        rw [candK] at hk
        rw [hk]
        exact this
      have hdecomp : ∀ (l : List Char) (i k : Nat),
          l = l.take i ++ ((l.drop i).take k ++ l.drop (i + k)) := by
        intro l i k
        have h1 : l.drop (i + k) = (l.drop i).drop k := by
          rw [List.drop_drop, Nat.add_comm]
        rw [h1, List.take_append_drop, List.take_append_drop]
      calc a = a.take (bestTriple a b).1 ++ ((a.drop (bestTriple a b).1).take (bestTriple a b).2.2
            ++ a.drop ((bestTriple a b).1 + (bestTriple a b).2.2)) :=
          hdecomp a (bestTriple a b).1 (bestTriple a b).2.2
        _ = b.take (bestTriple a b).2.1 ++ ((b.drop (bestTriple a b).2.1).take (bestTriple a b).2.2
            ++ b.drop ((bestTriple a b).2.1 + (bestTriple a b).2.2)) := by
          rw [hpre, hmid, hsuf]
        _ = b := (hdecomp b (bestTriple a b).2.1 (bestTriple a b).2.2).symm

theorem matchTotal_full (a b : List Char) (hM : matchTotal a b = a.length)
    (hab : a.length = b.length) : a = b :=
  matchTotalF_full (a.length + b.length) a b le_rfl hM hab

theorem ratioQ_le_one (a b : List Char) : ratioQ a b ≤ 1 := by
  unfold ratioQ
  split
  · exact le_rfl
  · rename_i h
    have hpos : (0 : ℚ) < (a.length : ℚ) + (b.length : ℚ) := by
      exact_mod_cast Nat.pos_of_ne_zero h
    rw [div_le_one hpos]
    have h1 := matchTotal_le_left a b
    have h2 := matchTotal_le_right a b
    exact_mod_cast (show 2 * matchTotal a b ≤ a.length + b.length by omega)

theorem ratioQ_eq_one_iff (a b : List Char) (hab : a.length = b.length) :
    ratioQ a b = 1 ↔ a = b := by
  unfold ratioQ
  split
  · rename_i h
    have ha : a = [] := List.length_eq_zero.mp (by omega)
    have hb : b = [] := List.length_eq_zero.mp (by omega)
    simp [ha, hb]
  · rename_i h
    have hpos : (0 : ℚ) < (a.length : ℚ) + (b.length : ℚ) := by
      have : 0 < a.length + b.length := Nat.pos_of_ne_zero h
      exact_mod_cast this
    rw [div_eq_one_iff_eq (ne_of_gt hpos)]
    constructor
    · intro hEq
      have h2M : 2 * matchTotal a b = a.length + b.length := by exact_mod_cast hEq
      exact matchTotal_full a b (by omega) hab
    · intro hEq
      subst hEq
      rw [matchTotal_self]
      ring


/-!
Helper lemmas about the species registry: every operation either leaves
`species` unchanged or extends it through `_set_species`, which appends a
name only when it is absent.
-/

theorem species_setParams (n : Nat) : ∀ (args : List String) (b : Builder),
    (setParams n b args).species = b.species := by
  intro args
  induction args with
  | nil => intro b; rfl
  | cons p rest ih =>
    intro b
    rw [setParams]
    split
    · exact ih b
    · exact ih _

theorem species_excludeIfZero (n : Nat) (pval : String) (b : Builder) :
    (excludeIfZero n pval b).species = b.species := by
  unfold excludeIfZero
  split <;> rfl

theorem species_processParamTokens (n : Nat) (args : List String) :
    ∀ (l : List String) (b : Builder),
      (processParamTokens n args b l).1.species = b.species := by
  intro l
  induction l with
  | nil => intro b; rfl
  | cons pval rest ih =>
    intro b
    rw [processParamTokens]
    split
    · split
      · rw [ih, species_excludeIfZero]
      · rfl
    · rfl

theorem species_processConstraints (n K : Nat) :
    ∀ (l : List String) (b : Builder),
      (processConstraints n K b l).1.species = b.species := by
  intro l
  induction l with
  | nil => intro b; rfl
  | cons pname rest ih =>
    intro b
    rw [processConstraints]
    split
    · rfl
    · exact ih _

theorem species_processInitTokens (n : Nat) (sentence : String) :
    ∀ (l : List String) (b : Builder),
      (processInitTokens n sentence b l).1.species = b.species := by
  intro l
  induction l with
  | nil => intro b; rfl
  | cons ival rest ih =>
    intro b
    rw [processInitTokens]
    split
    · split
      · split
        · rw [ih]
        · rfl
      · rfl
    · rfl

theorem species_processParamClause (b : Builder) (n : Nat) (line : String)
    (args : List String) : (processParamClause b n line args).1.species = b.species := by
  unfold processParamClause
  split
  · split
    · exact species_processParamTokens n args _ b
    · split
      · exact species_processConstraints n _ args b
      · rfl
  · rfl

theorem species_processInitClause (b : Builder) (n : Nat) (line : String) :
    (processInitClause b n line).1.species = b.species := by
  unfold processInitClause
  split
  · exact species_processInitTokens n _ _ b
  · rfl

theorem species_processClauses (b : Builder) (n : Nat) (line : String)
    (args : List String) : (processClauses b n line args).1.species = b.species := by
  unfold processClauses
  rcases hc : processParamClause b n line args with ⟨b1, r⟩
  have h1 : b1.species = b.species := by
    have := species_processParamClause b n line args
    rw [hc] at this
    exact this
  cases r with
  | none =>
    simpa [species_processInitClause b1 n line] using h1
  | some e => exact h1

theorem species_preprocessingSplit (b : Builder) (fn line : String) :
    (preprocessingSplit b fn line).1.species = b.species := by
  unfold preprocessingSplit
  split <;> rfl

theorem species_preprocessing (b : Builder) (fn : String) (n : Nat) (line : String)
    (args : List String) : (preprocessing b fn n line args).1.species = b.species := by
  unfold preprocessing
  by_cases hp : pyIn "|" line = true
  · rw [if_pos hp]
    rcases hc : processClauses (setParams n b args) n line args with ⟨b1, r⟩
    have h1 : b1.species = b.species := by
      have h2 := species_processClauses (setParams n b args) n line args
      rw [hc] at h2
      rw [h2, species_setParams]
    cases r with
    | some e => exact h1
    | none => rw [species_preprocessingSplit, h1]
  · rw [if_neg hp]
    rw [species_preprocessingSplit, species_setParams]

theorem spExt_refl (b : Builder) : SpExt b b := ⟨⟨[], by simp⟩, id⟩

theorem spExt_of_eq {b b' : Builder} (h : b'.species = b.species) : SpExt b b' :=
  ⟨⟨[], by simp [h]⟩, fun hn => h ▸ hn⟩

theorem spExt_trans {a b c : Builder} (h1 : SpExt a b) (h2 : SpExt b c) : SpExt a c := by
  obtain ⟨⟨t1, e1⟩, n1⟩ := h1
  obtain ⟨⟨t2, e2⟩, n2⟩ := h2
  exact ⟨⟨t1 ++ t2, by rw [e2, e1, List.append_assoc]⟩, fun h => n2 (n1 h)⟩

theorem spExt_setSpecies : ∀ (args : List String) (b : Builder),
    SpExt b (setSpecies b args) := by
  intro args
  induction args with
  | nil => intro b; exact spExt_refl b
  | cons s rest ih =>
    intro b
    rw [setSpecies]
    split
    · exact ih b
    · rename_i hs
      refine spExt_trans ?_ (ih _)
      refine ⟨⟨[s], rfl⟩, ?_⟩
      intro hn
      refine List.Nodup.append hn (List.nodup_singleton s) ?_
      intro x hx hxs
      rw [List.mem_singleton] at hxs
      exact hs (hxs ▸ hx)

theorem spExt_setSpeciesRep (b : Builder) (rep : Option String) :
    SpExt b (setSpeciesRep b rep) := by
  unfold setSpeciesRep
  split
  · exact spExt_refl b
  · exact spExt_setSpecies _ b

theorem species_removeRepressorParams (b : Builder) (n : Nat) (d1 : String) :
    (removeRepressorParams b n d1).species = b.species := by
  unfold removeRepressorParams
  split <;> rfl

theorem spExt_dimerizeCore (b : Builder) (n : Nat) (m d : String) :
    SpExt b (dimerizeCore b n m d).1 := by
  unfold dimerizeCore
  exact spExt_trans (spExt_setSpecies _ _) (spExt_of_eq rfl)

theorem spExt_dimerize (b : Builder) (n : Nat) (line : String) :
    SpExt b (dimerize b n line).1 := by
  unfold dimerize
  rcases hp : preprocessing b "dimerize" n line ["kf", "kr"] with ⟨b1, r⟩
  have h1 : b1.species = b.species := by
    have h2 := species_preprocessing b "dimerize" n line ["kf", "kr"]
    rw [hp] at h2
    exact h2
  cases r with
  | error e => exact spExt_of_eq h1
  | ok desc =>
    dsimp only
    split
    · split
      · exact spExt_of_eq h1
      · exact spExt_trans (spExt_of_eq h1) (spExt_dimerizeCore b1 n _ _)
    · exact spExt_of_eq h1

theorem spExt_bindCore (b : Builder) (n : Nat) (c1 c2 c3 : String) :
    SpExt b (bindCore b n c1 c2 c3).1 := by
  unfold bindCore
  exact spExt_trans (spExt_setSpecies _ _) (spExt_of_eq rfl)

theorem spExt_bind (b : Builder) (n : Nat) (line : String) :
    SpExt b (bind b n line).1 := by
  unfold bind
  rcases hp : preprocessing b "bind" n line ["kf", "kr"] with ⟨b1, r⟩
  have h1 : b1.species = b.species := by
    have h2 := species_preprocessing b "bind" n line ["kf", "kr"]
    rw [hp] at h2
    exact h2
  cases r with
  | error e => exact spExt_of_eq h1
  | ok desc =>
    dsimp only
    by_cases h2 : pyIn " --> " (desc.getD 1 "") = true
    · rw [if_pos h2]
      by_cases h3 : descHead desc = descArrow1 desc ∨ descArrow0 desc = descArrow1 desc
      · rw [if_pos h3]
        exact spExt_of_eq h1
      · rw [if_neg h3]
        by_cases h4 : descHead desc = descArrow0 desc
        · rw [if_pos h4]
          exact spExt_trans (spExt_of_eq h1) (spExt_dimerize b1 n line)
        · rw [if_neg h4]
          exact spExt_trans (spExt_of_eq h1) (spExt_bindCore b1 n _ _ _)
    · rw [if_neg h2]
      exact spExt_of_eq h1

theorem spExt_isDissociatedCore (b : Builder) (n : Nat) (c0 c1 c2 : String) :
    SpExt b (isDissociatedCore b n c0 c1 c2).1 := by
  unfold isDissociatedCore
  exact spExt_trans (spExt_setSpecies _ _) (spExt_of_eq rfl)

theorem spExt_is_dissociated (b : Builder) (n : Nat) (line : String) :
    SpExt b (is_dissociated b n line).1 := by
  unfold is_dissociated
  rcases hp : preprocessing b "is_dissociated" n line ["kf", "kr"] with ⟨b1, r⟩
  have h1 : b1.species = b.species := by
    have h2 := species_preprocessing b "is_dissociated" n line ["kf", "kr"]
    rw [hp] at h2
    exact h2
  cases r with
  | error e => exact spExt_of_eq h1
  | ok desc =>
    dsimp only
    split
    · exact spExt_of_eq h1
    · exact spExt_trans (spExt_of_eq h1) (spExt_isDissociatedCore b1 n _ _ _)

theorem spExt_isPhosphorylatedCore (b : Builder) (n : Nat) (u p : String) :
    SpExt b (isPhosphorylatedCore b n u p).1 := by
  unfold isPhosphorylatedCore
  exact spExt_trans (spExt_setSpecies _ _) (spExt_of_eq rfl)

theorem spExt_is_phosphorylated (b : Builder) (n : Nat) (line : String) :
    SpExt b (is_phosphorylated b n line).1 := by
  unfold is_phosphorylated
  rcases hp : preprocessing b "is_phosphorylated" n line ["kf", "kr"] with ⟨b1, r⟩
  have h1 : b1.species = b.species := by
    have h2 := species_preprocessing b "is_phosphorylated" n line ["kf", "kr"]
    rw [hp] at h2
    exact h2
  cases r with
  | error e => exact spExt_of_eq h1
  | ok desc =>
    dsimp only
    split
    · exact spExt_trans (spExt_of_eq h1) (spExt_isPhosphorylatedCore b1 n _ _)
    · exact spExt_of_eq h1

theorem spExt_isDephosphorylatedCore (b : Builder) (n : Nat) (p u : String) :
    SpExt b (isDephosphorylatedCore b n p u).1 := by
  unfold isDephosphorylatedCore
  exact spExt_trans (spExt_setSpecies _ _) (spExt_of_eq rfl)

theorem spExt_is_dephosphorylated (b : Builder) (n : Nat) (line : String) :
    SpExt b (is_dephosphorylated b n line).1 := by
  unfold is_dephosphorylated
  rcases hp : preprocessing b "is_dephosphorylated" n line ["V", "K"] with ⟨b1, r⟩
  have h1 : b1.species = b.species := by
    have h2 := species_preprocessing b "is_dephosphorylated" n line ["V", "K"]
    rw [hp] at h2
    exact h2
  cases r with
  | error e => exact spExt_of_eq h1
  | ok desc =>
    dsimp only
    split
    · exact spExt_trans (spExt_of_eq h1) (spExt_isDephosphorylatedCore b1 n _ _)
    · exact spExt_of_eq h1

theorem spExt_phosphorylateCore (b : Builder) (n : Nat) (k u p : String) :
    SpExt b (phosphorylateCore b n k u p).1 := by
  unfold phosphorylateCore
  exact spExt_trans (spExt_setSpecies _ _) (spExt_of_eq rfl)

theorem spExt_phosphorylate (b : Builder) (n : Nat) (line : String) :
    SpExt b (phosphorylate b n line).1 := by
  unfold phosphorylate
  rcases hp : preprocessing b "phosphorylate" n line ["V", "K"] with ⟨b1, r⟩
  have h1 : b1.species = b.species := by
    have h2 := species_preprocessing b "phosphorylate" n line ["V", "K"]
    rw [hp] at h2
    exact h2
  cases r with
  | error e => exact spExt_of_eq h1
  | ok desc =>
    dsimp only
    split
    · split
      · exact spExt_of_eq h1
      · exact spExt_trans (spExt_of_eq h1) (spExt_phosphorylateCore b1 n _ _ _)
    · exact spExt_of_eq h1

theorem spExt_dephosphorylateCore (b : Builder) (n : Nat) (ph p u : String) :
    SpExt b (dephosphorylateCore b n ph p u).1 := by
  unfold dephosphorylateCore
  exact spExt_trans (spExt_setSpecies _ _) (spExt_of_eq rfl)

theorem spExt_dephosphorylate (b : Builder) (n : Nat) (line : String) :
    SpExt b (dephosphorylate b n line).1 := by
  unfold dephosphorylate
  rcases hp : preprocessing b "dephosphorylate" n line ["V", "K"] with ⟨b1, r⟩
  have h1 : b1.species = b.species := by
    have h2 := species_preprocessing b "dephosphorylate" n line ["V", "K"]
    rw [hp] at h2
    exact h2
  cases r with
  | error e => exact spExt_of_eq h1
  | ok desc =>
    dsimp only
    split
    · split
      · exact spExt_of_eq h1
      · exact spExt_trans (spExt_of_eq h1) (spExt_dephosphorylateCore b1 n _ _ _)
    · exact spExt_of_eq h1

theorem spExt_transcribeCore (b : Builder) (n : Nat) (d0 mRNA : String)
    (rep : Option String) : SpExt b (transcribeCore b n d0 mRNA rep).1 := by
  unfold transcribeCore
  dsimp only
  split
  · exact spExt_trans (spExt_trans (spExt_setSpecies _ _) (spExt_setSpeciesRep _ _))
      (spExt_of_eq rfl)
  · exact spExt_trans (spExt_trans (spExt_setSpecies _ _) (spExt_setSpeciesRep _ _))
      (spExt_of_eq rfl)

theorem spExt_transcribe (b : Builder) (n : Nat) (line : String) :
    SpExt b (transcribe b n line).1 := by
  unfold transcribe
  rcases hp : preprocessing b "transcribe" n line ["V", "K", "n", "KF", "nF"] with ⟨b1, r⟩
  have h1 : b1.species = b.species := by
    have h2 := species_preprocessing b "transcribe" n line ["V", "K", "n", "KF", "nF"]
    rw [hp] at h2
    exact h2
  cases r with
  | error e => exact spExt_of_eq h1
  | ok desc =>
    have h1r : SpExt b (removeRepressorParams b1 n (desc.getD 1 "")) :=
      spExt_of_eq ((species_removeRepressorParams b1 n (desc.getD 1 "")).trans h1)
    dsimp only
    split
    · exact h1r
    · exact spExt_trans h1r (spExt_transcribeCore _ n _ _ _)

theorem spExt_isTranslatedCore (b : Builder) (n : Nat) (m p : String) :
    SpExt b (isTranslatedCore b n m p).1 := by
  unfold isTranslatedCore
  exact spExt_trans (spExt_setSpecies _ _) (spExt_of_eq rfl)

theorem spExt_is_translated (b : Builder) (n : Nat) (line : String) :
    SpExt b (is_translated b n line).1 := by
  unfold is_translated
  rcases hp : preprocessing b "is_translated" n line ["kf"] with ⟨b1, r⟩
  have h1 : b1.species = b.species := by
    have h2 := species_preprocessing b "is_translated" n line ["kf"]
    rw [hp] at h2
    exact h2
  cases r with
  | error e => exact spExt_of_eq h1
  | ok desc => exact spExt_trans (spExt_of_eq h1) (spExt_isTranslatedCore b1 n _ _)

theorem spExt_synthesizeCore (b : Builder) (n : Nat) (c p : String) :
    SpExt b (synthesizeCore b n c p).1 := by
  unfold synthesizeCore
  exact spExt_trans (spExt_setSpecies _ _) (spExt_of_eq rfl)

theorem spExt_synthesize (b : Builder) (n : Nat) (line : String) :
    SpExt b (synthesize b n line).1 := by
  unfold synthesize
  rcases hp : preprocessing b "synthesize" n line ["kf"] with ⟨b1, r⟩
  have h1 : b1.species = b.species := by
    have h2 := species_preprocessing b "synthesize" n line ["kf"]
    rw [hp] at h2
    exact h2
  cases r with
  | error e => exact spExt_of_eq h1
  | ok desc => exact spExt_trans (spExt_of_eq h1) (spExt_synthesizeCore b1 n _ _)

theorem spExt_isSynthesizedCore (b : Builder) (n : Nat) (c : String) :
    SpExt b (isSynthesizedCore b n c).1 := by
  unfold isSynthesizedCore
  exact spExt_trans (spExt_setSpecies _ _) (spExt_of_eq rfl)

theorem spExt_is_synthesized (b : Builder) (n : Nat) (line : String) :
    SpExt b (is_synthesized b n line).1 := by
  unfold is_synthesized
  rcases hp : preprocessing b "is_synthesized" n line ["kf"] with ⟨b1, r⟩
  have h1 : b1.species = b.species := by
    have h2 := species_preprocessing b "is_synthesized" n line ["kf"]
    rw [hp] at h2
    exact h2
  cases r with
  | error e => exact spExt_of_eq h1
  | ok desc => exact spExt_trans (spExt_of_eq h1) (spExt_isSynthesizedCore b1 n _)

theorem spExt_degradeCore (b : Builder) (n : Nat) (c p : String) :
    SpExt b (degradeCore b n c p).1 := by
  unfold degradeCore
  exact spExt_trans (spExt_setSpecies _ _) (spExt_of_eq rfl)

theorem spExt_degrade (b : Builder) (n : Nat) (line : String) :
    SpExt b (degrade b n line).1 := by
  unfold degrade
  rcases hp : preprocessing b "degrade" n line ["kf"] with ⟨b1, r⟩
  have h1 : b1.species = b.species := by
    have h2 := species_preprocessing b "degrade" n line ["kf"]
    rw [hp] at h2
    exact h2
  cases r with
  | error e => exact spExt_of_eq h1
  | ok desc => exact spExt_trans (spExt_of_eq h1) (spExt_degradeCore b1 n _ _)

theorem spExt_isDegradedCore (b : Builder) (n : Nat) (c : String) :
    SpExt b (isDegradedCore b n c).1 := by
  unfold isDegradedCore
  exact spExt_trans (spExt_setSpecies _ _) (spExt_of_eq rfl)

theorem spExt_is_degraded (b : Builder) (n : Nat) (line : String) :
    SpExt b (is_degraded b n line).1 := by
  unfold is_degraded
  rcases hp : preprocessing b "is_degraded" n line ["kf"] with ⟨b1, r⟩
  have h1 : b1.species = b.species := by
    have h2 := species_preprocessing b "is_degraded" n line ["kf"]
    rw [hp] at h2
    exact h2
  cases r with
  | error e => exact spExt_of_eq h1
  | ok desc => exact spExt_trans (spExt_of_eq h1) (spExt_isDegradedCore b1 n _)

theorem spExt_isTranslocatedCore (b : Builder) (n : Nat) (pre post pV qV : String) :
    SpExt b (isTranslocatedCore b n pre post pV qV).1 := by
  unfold isTranslocatedCore
  exact spExt_trans (spExt_setSpecies _ _) (spExt_of_eq rfl)

theorem spExt_is_translocated (b : Builder) (n : Nat) (line : String) :
    SpExt b (is_translocated b n line).1 := by
  unfold is_translocated
  rcases hp : preprocessing b "is_translocated" n line ["kf", "kr"] with ⟨b1, r⟩
  have h1 : b1.species = b.species := by
    have h2 := species_preprocessing b "is_translocated" n line ["kf", "kr"]
    rw [hp] at h2
    exact h2
  cases r with
  | error e => exact spExt_of_eq h1
  | ok desc =>
    dsimp only
    split
    · split
      · exact spExt_of_eq h1
      · split
        · exact spExt_of_eq h1
        · exact spExt_trans (spExt_of_eq h1) (spExt_isTranslocatedCore b1 n _ _ _ _)
    · exact spExt_of_eq h1

theorem spExt_callRule (b : Builder) (rule : String) (n : Nat) (line : String) :
    SpExt b (callRule b rule n line).1 := by
  unfold callRule
  by_cases c1 : rule = "dimerize"
  · rw [if_pos c1]; exact spExt_dimerize b n line
  rw [if_neg c1]
  by_cases c2 : rule = "bind"
  · rw [if_pos c2]; exact spExt_bind b n line
  rw [if_neg c2]
  by_cases c3 : rule = "is_dissociated"
  · rw [if_pos c3]; exact spExt_is_dissociated b n line
  rw [if_neg c3]
  by_cases c4 : rule = "is_phosphorylated"
  · rw [if_pos c4]; exact spExt_is_phosphorylated b n line
  rw [if_neg c4]
  by_cases c5 : rule = "is_dephosphorylated"
  · rw [if_pos c5]; exact spExt_is_dephosphorylated b n line
  rw [if_neg c5]
  by_cases c6 : rule = "phosphorylate"
  · rw [if_pos c6]; exact spExt_phosphorylate b n line
  rw [if_neg c6]
  by_cases c7 : rule = "dephosphorylate"
  · rw [if_pos c7]; exact spExt_dephosphorylate b n line
  rw [if_neg c7]
  by_cases c8 : rule = "transcribe"
  · rw [if_pos c8]; exact spExt_transcribe b n line
  rw [if_neg c8]
  by_cases c9 : rule = "is_translated"
  · rw [if_pos c9]; exact spExt_is_translated b n line
  rw [if_neg c9]
  by_cases c10 : rule = "synthesize"
  · rw [if_pos c10]; exact spExt_synthesize b n line
  rw [if_neg c10]
  by_cases c11 : rule = "is_synthesized"
  · rw [if_pos c11]; exact spExt_is_synthesized b n line
  rw [if_neg c11]
  by_cases c12 : rule = "degrade"
  · rw [if_pos c12]; exact spExt_degrade b n line
  rw [if_neg c12]
  by_cases c13 : rule = "is_degraded"
  · rw [if_pos c13]; exact spExt_is_degraded b n line
  rw [if_neg c13]
  by_cases c14 : rule = "is_translocated"
  · rw [if_pos c14]; exact spExt_is_translocated b n line
  rw [if_neg c14]
  exact spExt_refl b

theorem species_processSim (b : Builder) (line : String) :
    (processSim b line).1.species = b.species := by
  unfold processSim
  repeat' split
  all_goals rfl

theorem spExt_processLine (lines : List String) (b : Builder) (n : Nat) (raw : String) :
    SpExt b (processLine lines b n raw).1 := by
  unfold processLine
  dsimp only
  by_cases c1 : pyStripWS (normalize raw) = ""
  · rw [if_pos c1]; exact spExt_refl b
  rw [if_neg c1]
  by_cases c2 : pyCount (normalize raw) lines > 1
  · rw [if_pos c2]; exact spExt_refl b
  rw [if_neg c2]
  by_cases c3 : pyStartsWith (normalize raw) "@obs " = true
  · rw [if_pos c3]; exact spExt_of_eq rfl
  rw [if_neg c3]
  by_cases c4 : pyStartsWith (normalize raw) "@sim " = true
  · rw [if_pos c4]; exact spExt_of_eq (species_processSim b _)
  rw [if_neg c4]
  rcases hm : findMatchingRule b.rule_words (normalize raw) with _ | rule
  · exact spExt_refl b
  · exact spExt_callRule b rule n (normalize raw)

theorem spExt_createOdeAux (lines : List String) :
    ∀ (rest : List String) (b : Builder) (n : Nat),
      SpExt b (createOdeAux lines b n rest).1 := by
  intro rest
  induction rest with
  | nil => intro b n; exact spExt_refl b
  | cons raw t ih =>
    intro b n
    rw [createOdeAux]
    rcases hp : processLine lines b n raw with ⟨b1, r⟩
    have h1 : SpExt b b1 := by
      have h2 := spExt_processLine lines b n raw
      rw [hp] at h2
      exact h2
    cases r with
    | none => exact spExt_trans h1 (ih b1 (n + 1))
    | some e => exact h1


theorem pyCount_eq_zero {x : String} : ∀ {l : List String}, x ∉ l → pyCount x l = 0 := by
  intro l
  induction l with
  | nil => intro _; rfl
  | cons h t ih =>
    intro hx
    rw [pyCount]
    rw [if_neg (fun he : h = x => hx (he ▸ List.mem_cons_self h t))]
    simpa using ih (fun ht => hx (List.mem_cons_of_mem h ht))

theorem createOdeAux_cons (lines : List String) (b : Builder) (n : Nat) (raw : String)
    (rest : List String) :
    createOdeAux lines b n (raw :: rest) =
      match processLine lines b n raw with
      | (b', none) => createOdeAux lines b' (n + 1) rest
      | (b', some e) => (b', some e) := rfl

/-!
The claims.
-/

/-- C1: the spec states that the differential-equation accumulator keeps at
most one entry per species (an existing entry, found by exact identifier
match, is extended; a new entry is created only when none exists).  The
code breaks this invariant: in `is_phosphorylated`, the membership test for
the phosphorylated species' entry uses the literal string
`"dydt[V.{phosphorylated_form}]"` — the `f` prefix is missing in the source
(reaction_rules.py line 621) — which never occurs in any equation, so a
second entry for that species is appended.  On the file
`"Ap is degraded"` (line 1), `"A is phosphorylated --> Ap"` (line 2) the
build succeeds and ends with two entries for species `Ap`. -/
theorem c1_accumulator_duplicate_entry :
    (createOde initialBuilder ["Ap is degraded\n", "A is phosphorylated --> Ap\n"]).2 =
      none ∧
    (createOde initialBuilder
        ["Ap is degraded\n", "A is phosphorylated --> Ap\n"]).1.differential_equations =
      ["dydt[V.Ap] = - v[1]", "dydt[V.A] = - v[2]", "dydt[V.Ap] = + v[2]"] ∧
    ((createOde initialBuilder
        ["Ap is degraded\n", "A is phosphorylated --> Ap\n"]).1.differential_equations.countP
      (fun eq => pyIn (dydtPat "Ap") eq)) = 2 := by
  decide

/-- C2: on the single line `"A dimerizes --> B"` the claim (and the
handler's own docstring) give `dA/dt = -2*v[1]`.  The code emits
`dydt[V.A] = - v[1]`: only the merge-into-existing-entry branch of
`dimerize` uses the factor `- 2 * v`, the fresh-entry branch appends
`- v[{line_num}]` (reaction_rules.py line 452).  Species, parameters, the
rate law and `dB/dt = + v[1]` agree with the claim. -/
theorem c2_dimerize_scenario :
    (createOde initialBuilder ["A dimerizes --> B\n"]).2 = none ∧
    (createOde initialBuilder ["A dimerizes --> B\n"]).1.species = ["A", "B"] ∧
    (createOde initialBuilder ["A dimerizes --> B\n"]).1.parameters = ["kf1", "kr1"] ∧
    (createOde initialBuilder ["A dimerizes --> B\n"]).1.reactions =
      ["v[1] = x[C.kf1] * y[V.A] * y[V.A] - x[C.kr1] * y[V.B]"] ∧
    (createOde initialBuilder ["A dimerizes --> B\n"]).1.differential_equations =
      ["dydt[V.A] = - v[1]", "dydt[V.B] = + v[1]"] := by
  decide

/-- C3 counterexample: the claim says the species registry's iteration
order equals the order of first textual mention.  On the single line
`"A transcribes B"` the species `A` is mentioned first (position 0, before
`B` at position 14), yet `transcribe` registers the mRNA before the
transcription factor, so the registry reads `["B", "A"]`. -/
theorem c3_counterexample :
    (createOde initialBuilder ["A transcribes B\n"]).2 = none ∧
    (createOde initialBuilder ["A transcribes B\n"]).1.species = ["B", "A"] ∧
    firstMentionPos "A transcribes B\n" "A" < firstMentionPos "A transcribes B\n" "B" := by
  decide

/-- C3 amended: a species is appended to the registry exactly once, at its
first registration by a handler, and is never moved or removed afterwards
— the registry only grows by appending and stays duplicate-free — but the
registration order within a line is the handler's argument order, which
for `transcribe` differs from textual mention order. -/
theorem c3_species_append_only (b : Builder) (lines : List String) :
    (∃ t, (createOde b lines).1.species = b.species ++ t) ∧
    (b.species.Nodup → (createOde b lines).1.species.Nodup) :=
  spExt_createOdeAux lines lines b 1

theorem c3_species_append_only_witness :
    (∃ t, (createOde initialBuilder ["A transcribes B\n"]).1.species =
      initialBuilder.species ++ t) ∧
    (initialBuilder.species.Nodup →
      (createOde initialBuilder ["A transcribes B\n"]).1.species.Nodup) :=
  c3_species_append_only initialBuilder ["A transcribes B\n"]

/-- C4: the claim says a bind line with `A == B` falls back to the
dimerize rule and is processed as a dimerization of `A`.  The code does
delegate (`self.dimerize(line_num, line)`), but `dimerize`'s preprocessing
then searches the line for a *dimerize* trigger phrase, finds none (the
line contains only the bind phrase), and `max(hit_words, key=len)` raises
`ValueError: max() arg is an empty sequence`.  No reaction or species is
ever produced for such a line. -/
theorem c4_bind_fallback_crash :
    (createOde initialBuilder ["A binds A --> AA\n"]).2 =
      some "max() arg is an empty sequence" ∧
    (createOde initialBuilder ["A binds A --> AA\n"]).1.reactions = [] ∧
    (createOde initialBuilder ["A binds A --> AA\n"]).1.species = [] ∧
    (createOde initialBuilder ["A binds A --> AA\n"]).1.parameters = ["kf1", "kr1"] := by
  decide

/-- C5 counterexample: the claim says that after a failed line the
observable collections contain no contribution from that line.  The line
`"A dimerizes"` (missing `-->`) fails, yet the parameters `kf1`, `kr1`
registered by `_preprocessing` before the error remain in the parameter
collection. -/
theorem c5_counterexample :
    (createOde initialBuilder ["A dimerizes\n"]).2.isSome = true ∧
    (createOde initialBuilder ["A dimerizes\n"]).1.parameters = ["kf1", "kr1"] := by
  decide

/-- C5 amended: a failure aborts the build immediately — the failing
line's error is surfaced and no later line is processed — but the builder
retains the mutations made before the error, including the failed line's
parameter registrations: for any tail of further lines, the build on
`"A dimerizes"` followed by that tail stops at line 1 with exactly the
parameters `kf1`, `kr1` registered. -/
theorem c5_fail_fast_state (rest : List String) (h : "A dimerizes\n" ∉ rest) :
    createOde initialBuilder ("A dimerizes\n" :: rest) =
      ({ initialBuilder with parameters := ["kf1", "kr1"] },
        some "line1: Use '-->' to specify the name of the dimer.") := by
  have hcount : pyCount (normalize "A dimerizes\n") ("A dimerizes\n" :: rest) = 1 := by
    have hn : normalize "A dimerizes\n" = "A dimerizes\n" := by decide
    rw [hn, pyCount, if_pos rfl, pyCount_eq_zero h]
  have hpl : processLine ("A dimerizes\n" :: rest) initialBuilder 1 "A dimerizes\n" =
      ({ initialBuilder with parameters := ["kf1", "kr1"] },
        some "line1: Use '-->' to specify the name of the dimer.") := by
    unfold processLine
    dsimp only
    rw [if_neg (by decide : ¬ pyStripWS (normalize "A dimerizes\n") = "")]
    rw [if_neg (by rw [hcount]; decide :
      ¬ pyCount (normalize "A dimerizes\n") ("A dimerizes\n" :: rest) > 1)]
    decide
  unfold createOde
  rw [createOdeAux_cons, hpl]

theorem c5_fail_fast_state_witness :
    createOde initialBuilder ("A dimerizes\n" :: ["B is degraded\n"]) =
      ({ initialBuilder with parameters := ["kf1", "kr1"] },
        some "line1: Use '-->' to specify the name of the dimer.") :=
  c5_fail_fast_state ["B is degraded\n"] (by decide)

/-- C6 counterexample: the claim says an exact (pre-normalization) line
text occurring more than once always fails with the duplicate-line error.
The code counts the *normalized* current line among the *raw* lines
(`lines.count(line)` after `line` was collapsed/comment-stripped), so two
identical raw lines containing a double space are never detected: the
build below succeeds although the exact text `"A  is degraded"` occurs
twice. -/
theorem c6_counterexample :
    pyCount "A  is degraded\n" ["A  is degraded\n", "A  is degraded\n"] = 2 ∧
    (createOde initialBuilder ["A  is degraded\n", "A  is degraded\n"]).2 = none := by
  decide

/-- C6 amended: duplicate detection compares the current line's normalized
text against the raw line texts; the build fails with the duplicate-line
error naming every 1-based line number whose raw text equals that
normalized text, whenever the count exceeds one.  For any line text that
is already normalized (so raw and normalized coincide) and not blank,
placed at lines 3 and 7 of an otherwise blank file, the build fails citing
exactly `3, 7` — the claim's scenario 3.  (Lines whose raw text differs
from its normalization are not detected; see the counterexample.) -/
theorem c6_duplicate_detection (t : String) (h1 : normalize t = t)
    (h2 : pyStripWS t ≠ "") :
    createOde initialBuilder ["\n", "\n", t, "\n", "\n", "\n", t] =
      (initialBuilder,
        some ("Reaction '" ++ t ++ "' is duplicated in lines " ++ pyJoin ", " ["3", "7"])) := by
  have hne : "\n" ≠ t := by
    intro he
    rw [← he] at h2
    exact h2 (by decide)
  have hcount : pyCount t ["\n", "\n", t, "\n", "\n", "\n", t] = 2 := by
    simp [pyCount, hne]
  have hdup : dupPositions ["\n", "\n", t, "\n", "\n", "\n", t] t = ["3", "7"] := by
    simp [dupPositions, dupPositionsAux, hne]
    decide
  have hblank : ∀ (b : Builder) (m : Nat),
      processLine ["\n", "\n", t, "\n", "\n", "\n", t] b m "\n" = (b, none) := by
    intro b m
    unfold processLine
    dsimp only
    rw [if_pos (by decide : pyStripWS (normalize "\n") = "")]
  have hdupline : processLine ["\n", "\n", t, "\n", "\n", "\n", t] initialBuilder 3 t =
      (initialBuilder,
        some ("Reaction '" ++ t ++ "' is duplicated in lines " ++ pyJoin ", " ["3", "7"])) := by
    unfold processLine
    dsimp only
    rw [h1]
    rw [if_neg h2]
    rw [if_pos (by rw [hcount]; decide : pyCount t ["\n", "\n", t, "\n", "\n", "\n", t] > 1)]
    rw [hdup]
  unfold createOde
  rw [createOdeAux_cons, hblank]
  dsimp only
  rw [createOdeAux_cons, hblank]
  dsimp only
  rw [createOdeAux_cons, hdupline]

theorem c6_duplicate_detection_witness :
    createOde initialBuilder
      ["\n", "\n", "A is degraded\n", "\n", "\n", "\n", "A is degraded\n"] =
      (initialBuilder,
        some ("Reaction '" ++ "A is degraded\n" ++ "' is duplicated in lines " ++
          pyJoin ", " ["3", "7"])) :=
  c6_duplicate_detection "A is degraded\n" (by decide) (by decide)


/-- `listContains pat s` decides list-infix containment. -/
theorem listContains_iff_infix (pat : List Char) :
    ∀ s : List Char, listContains pat s = true ↔ pat <:+: s := by
  intro s
  induction s with
  | nil => simp [listContains, List.isPrefixOf_iff_prefix]
  | cons c t ih =>
    simp [listContains, List.isPrefixOf_iff_prefix, List.infix_cons_iff, ih]

/-- Python substring containment is reflexive. -/
theorem pyIn_self (s : String) : pyIn s s = true := by
  rw [pyIn, listContains_iff_infix]

/-- Mutual Python substring containment forces equality. -/
theorem pyIn_antisymm {a b : String} (h1 : pyIn a b = true) (h2 : pyIn b a = true) :
    a = b := by
  rw [pyIn, listContains_iff_infix] at h1 h2
  exact String.ext (h1.sublist.eq_of_length (Nat.le_antisymm h1.length_le h2.length_le))

/-- The collision test of `register_word` — mutual substring containment of
the stored word and the space-prefixed candidate — holds exactly when the
space-prefixed candidate is literally one of the stored words. -/
theorem registerWordHit_iff (word : String) (rw : String × List String) :
    (rw.2.any (fun w => pyIn (" " ++ word) w && pyIn w (" " ++ word))) = true ↔
      (" " ++ word) ∈ rw.2 := by
  rw [List.any_eq_true]
  constructor
  · rintro ⟨w, hw, hp⟩
    rw [Bool.and_eq_true] at hp
    rw [pyIn_antisymm hp.1 hp.2]
    exact hw
  · intro hw
    exact ⟨" " ++ word, hw, by rw [Bool.and_eq_true]; exact ⟨pyIn_self _, pyIn_self _⟩⟩

/-- C7: `register_word(rule, word)` fails exactly when the rule name is
unknown or the space-prefixed word already occurs in some rule's word list
(the code's mutual-substring collision test reduces to exact equality by
antisymmetry, so both a collision with a different rule's word and
re-registering the same pair are rejected, and nothing weaker is); on
success the only change to the state is appending `" " ++ word` to the
named rule's own word list. -/
theorem c7_register_word_spec (b : Builder) (rule word : String) :
    ((registerWord b rule word).2.isSome = true ↔
      rule ∉ b.rule_words.map Prod.fst ∨
        ∃ rw ∈ b.rule_words, (" " ++ word) ∈ rw.2) ∧
    ((registerWord b rule word).2 = none →
      registerWord b rule word =
        ({ b with rule_words := b.rule_words.map (fun rw =>
            if rw.1 = rule then (rw.1, rw.2 ++ [" " ++ word]) else rw) }, none)) := by
  unfold registerWord
  by_cases hmem : rule ∈ b.rule_words.map Prod.fst
  · rw [if_neg (not_not_intro hmem)]
    rcases hf : b.rule_words.find? (fun rw => rw.2.any (fun w =>
        pyIn (" " ++ word) w && pyIn w (" " ++ word))) with _ | rw
    · rw [hf]
      refine ⟨?_, fun _ => rfl⟩
      simp only [Option.isSome_none, Bool.false_eq_true, false_iff]
      rintro (hno | ⟨rw0, hrw0, hw⟩)
      · exact hno hmem
      · exact List.find?_eq_none.mp hf rw0 hrw0 ((registerWordHit_iff word rw0).mpr hw)
    · rw [hf]
      have hp := List.find?_some hf
      refine ⟨iff_of_true rfl ?_, fun h => (Option.some_ne_none _ h).elim⟩
      exact Or.inr ⟨rw, List.mem_of_find?_eq_some hf, (registerWordHit_iff word rw).mp hp⟩
  · rw [if_pos hmem]
    exact ⟨iff_of_true rfl (Or.inl hmem), fun h => (Option.some_ne_none _ h).elim⟩

/-- Concrete run of the `register_word` characterisation: registering
`"releases"` under `is_dissociated` succeeds and appends `" releases"` to
that rule's word list. -/
theorem c7_register_word_spec_witness :
    registerWord initialBuilder "is_dissociated" "releases" =
      ({ initialBuilder with rule_words := initialBuilder.rule_words.map (fun rw =>
          if rw.1 = "is_dissociated" then (rw.1, rw.2 ++ [" releases"]) else rw) }, none) :=
  (c7_register_word_spec initialBuilder "is_dissociated" "releases").2 (by decide)


/-- Deduplication preserves membership: the deduplicated list holds exactly
the recorded pairs. -/
theorem mem_firstDedup {x : String × String} :
    ∀ {l : List (String × String)}, x ∈ firstDedup l ↔ x ∈ l := by
  intro l
  induction l with
  | nil => exact Iff.rfl
  | cons h t ih =>
    by_cases hx : x = h
    · subst hx; simp [firstDedup]
    · simp [firstDedup, List.mem_filter, ih, hx]

/-- C8: the post-parse check fails exactly when some recorded pair of odd
multiplicity in the full recorded list conflicts (shares exactly one of its
two names) with some recorded pair — the code scans the deduplicated list,
which holds the same pairs; and the build of `"X is phosphorylated --> Xp"`
(line 1) with `"X is phosphorylated --> Xphos"` (line 3) fails naming `Xp`
and `Xphos`. -/
theorem c8_species_name_check :
    (∀ pairs : List (String × String),
      (checkSpeciesNames pairs).isSome = true ↔
        ∃ one ∈ pairs, pairs.count one % 2 = 1 ∧
          ∃ another ∈ pairs, pairConflict one another = true) ∧
    (buildModel ["X is phosphorylated --> Xp\n", "\n",
        "X is phosphorylated --> Xphos\n"]).2 =
      some "These species names should be same: 'Xp' and 'Xphos'." := by
  constructor
  · intro pairs
    rw [checkSpeciesNames, List.head?_isSome, Ne, List.filterMap_eq_nil_iff]
    push_neg
    constructor
    · rintro ⟨one, h1, h2⟩
      by_cases hc : pairs.count one % 2 = 1
      · rw [if_pos hc, Ne, Option.map_eq_none', List.find?_eq_none] at h2
        push_neg at h2
        obtain ⟨another, ha, hpa⟩ := h2
        exact ⟨one, h1, hc, another, mem_firstDedup.mp ha, hpa⟩
      · rw [if_neg hc] at h2
        exact absurd rfl h2
    · rintro ⟨one, h1, hc, another, ha, hpa⟩
      refine ⟨one, h1, ?_⟩
      rw [if_pos hc, Ne, Option.map_eq_none', List.find?_eq_none]
      push_neg
      exact ⟨another, mem_firstDedup.mpr ha, hpa⟩
  · decide


/-- Parameter lists pass unchanged through `_set_species`. -/
theorem params_setSpecies : ∀ (args : List String) (b : Builder),
    (setSpecies b args).parameters = b.parameters := by
  intro args
  induction args with
  | nil => intro b; rfl
  | cons s rest ih =>
    intro b
    rw [setSpecies]
    split
    · exact ih b
    · exact ih _

/-- Parameter lists pass unchanged through the repressor registration. -/
theorem params_setSpeciesRep (b : Builder) (rep : Option String) :
    (setSpeciesRep b rep).parameters = b.parameters := by
  cases rep with
  | none => rfl
  | some r => exact params_setSpecies [r] b

/-- The species/rate-law block of `transcribe` leaves the parameter list
unchanged. -/
theorem params_transcribeCore (b : Builder) (n : Nat) (d0 mRNA : String)
    (rep : Option String) :
    (transcribeCore b n d0 mRNA rep).1.parameters = b.parameters := by
  unfold transcribeCore
  dsimp only
  split
  · rw [params_setSpeciesRep, params_setSpecies]
  · rw [params_setSpeciesRep, params_setSpecies]

/-- `_set_params` leaves the rule lexicon unchanged. -/
theorem rule_words_setParams (n : Nat) : ∀ (args : List String) (b : Builder),
    (setParams n b args).rule_words = b.rule_words := by
  intro args
  induction args with
  | nil => intro b; rfl
  | cons p rest ih =>
    intro b
    rw [setParams]
    split
    · exact ih b
    · exact ih _

/-- Appending a fixed suffix is injective on strings. -/
theorem append_right_injective_str (x : String) :
    Function.Injective (fun p : String => p ++ x) := by
  intro p q h
  have h2 : p ++ x = q ++ x := h
  apply String.ext
  have h3 := congrArg String.data h2
  rw [String.data_append, String.data_append] at h3
  exact List.append_cancel_right h3

/-- Strings with a common suffix and different lengths differ. -/
theorem append_ne_of_length_ne {p q : String} (x : String) (h : p.length ≠ q.length) :
    p ++ x ≠ q ++ x := by
  intro he
  apply h
  have h2 := congrArg String.length he
  rw [String.length_append, String.length_append] at h2
  omega

/-- `_set_params` on fresh, pairwise-distinct parameter names appends them
all, in order. -/
theorem params_setParams_fresh (n : Nat) : ∀ (args : List String) (b : Builder),
    (∀ p ∈ args, (p ++ toString n) ∉ b.parameters) →
    (args.map (fun p => p ++ toString n)).Nodup →
    (setParams n b args).parameters =
      b.parameters ++ args.map (fun p => p ++ toString n) := by
  intro args
  induction args with
  | nil => intro b _ _; simp [setParams]
  | cons p rest ih =>
    intro b hfresh hnd
    rw [List.map_cons] at hnd
    have hnd2 := List.nodup_cons.mp hnd
    rw [setParams, if_neg (hfresh p (by simp))]
    have hfr : ∀ q ∈ rest, (q ++ toString n) ∉
        ({ b with parameters := b.parameters ++ [p ++ toString n] } : Builder).parameters := by
      intro q hq hmem
      have hmem2 : q ++ toString n ∈ b.parameters ++ [p ++ toString n] := hmem
      rcases List.mem_append.mp hmem2 with hm | hm
      · exact hfresh q (List.mem_cons_of_mem p hq) hm
      · have he : q ++ toString n = p ++ toString n := by simpa using hm
        apply hnd2.1
        rw [← he]
        exact List.mem_map_of_mem _ hq
    rw [ih _ hfr hnd2.2]
    simp

/-- On a nonempty list, `max(l, key=len)` is `some` of its default read. -/
theorem maxByLen_eq_some (l : List String) (h : l ≠ []) :
    maxByLen l = some ((maxByLen l).getD "") := by
  cases l with
  | nil => exact absurd rfl h
  | cons x t => rfl

/-- The seed of a `max` fold bounds the result from below. -/
theorem le_foldl_max : ∀ (t : List ℚ) (h : ℚ), h ≤ t.foldl max h := by
  intro t
  induction t with
  | nil => intro h; exact le_rfl
  | cons x t ih => intro h; exact le_trans (le_max_left h x) (ih (max h x))

/-- A `max` fold bounds every entry it has seen. -/
theorem mem_le_foldl_max : ∀ (t : List ℚ) (h x : ℚ), x ∈ h :: t → x ≤ t.foldl max h := by
  intro t
  induction t with
  | nil =>
    intro h x hx
    rw [List.mem_singleton] at hx
    exact hx.le
  | cons y t ih =>
    intro h x hx
    rw [List.foldl_cons]
    rcases List.mem_cons.mp hx with he | hx2
    · exact le_trans (he.le.trans (le_max_left h y)) (le_foldl_max t (max h y))
    · rcases List.mem_cons.mp hx2 with he2 | hx3
      · exact le_trans (he2.le.trans (le_max_right h y)) (le_foldl_max t (max h y))
      · exact ih (max h y) x (List.mem_cons_of_mem _ hx3)

/-- Every member of a score list bounds `max(scores)` from below. -/
theorem le_pyMaxD_of_mem {x : ℚ} {l : List ℚ} (hx : x ∈ l) : x ≤ pyMaxD l := by
  cases l with
  | nil => exact absurd hx (List.not_mem_nil x)
  | cons h t => exact mem_le_foldl_max t h x hx

/-- A `max` fold returns the seed or a list entry. -/
theorem foldl_max_mem : ∀ (t : List ℚ) (h : ℚ), t.foldl max h ∈ h :: t := by
  intro t
  induction t with
  | nil => intro h; exact List.mem_singleton.mpr rfl
  | cons y t ih =>
    intro h
    rw [List.foldl_cons]
    rcases List.mem_cons.mp (ih (max h y)) with he | hm
    · rw [he]
      rcases max_choice h y with h1 | h1 <;> rw [h1]
      · exact List.mem_cons_self h _
      · exact List.mem_cons_of_mem h (List.mem_cons_self y t)
    · exact List.mem_cons_of_mem h (List.mem_cons_of_mem y hm)

/-- `max(scores)` of a nonempty score list is one of the scores. -/
theorem pyMaxD_mem {l : List ℚ} (h : l ≠ []) : pyMaxD l ∈ l := by
  cases l with
  | nil => exact absurd rfl h
  | cons x t => exact foldl_max_mem t x

/-- `ratio()` of a sequence against itself is `1.0`. -/
theorem ratioQ_self (a : List Char) : ratioQ a a = 1 := by
  unfold ratioQ
  split
  · rfl
  · rename_i h
    have hpos : ((a.length : ℚ) + (a.length : ℚ)) ≠ 0 := by exact_mod_cast h
    rw [matchTotal_self, div_eq_one_iff_eq hpos]
    ring

/-- Any member of `_word2scores(word, sentence)` is the ratio of `word`
against some equal-length window of `sentence`. -/
theorem mem_word2scores {x : ℚ} {w s : String} (hx : x ∈ word2scores w s) :
    w.toList.length ≤ s.toList.length ∧
      ∃ i, i + w.toList.length ≤ s.toList.length ∧
        x = ratioQ w.toList ((s.toList.drop i).take w.toList.length) := by
  unfold word2scores at hx
  dsimp only at hx
  by_cases hle : w.toList.length ≤ s.toList.length
  · rw [if_pos hle] at hx
    obtain ⟨i, hi, he⟩ := List.mem_map.mp hx
    have hi2 := List.mem_range.mp hi
    exact ⟨hle, i, by omega, he.symm⟩
  · rw [if_neg hle] at hx
    exact absurd hx (List.not_mem_nil x)

/-- Every in-range window contributes its ratio to `_word2scores`. -/
theorem word2scores_mem {w s : String} {i : Nat}
    (hi : i + w.toList.length ≤ s.toList.length) :
    ratioQ w.toList ((s.toList.drop i).take w.toList.length) ∈ word2scores w s := by
  unfold word2scores
  dsimp only
  rw [if_pos (by omega)]
  exact List.mem_map_of_mem _ (List.mem_range.mpr (by omega))

/-- The repressor-clause test of `transcribe` — score list empty or best
`ratio()` below `1.0` — holds exactly when `", repressed by"` does not
occur verbatim in `description[1]`. -/
theorem transcribeNoRep_iff (d1 : String) :
    transcribeNoRep d1 = true ↔ pyIn ", repressed by" d1 = false := by
  constructor
  · intro hnr
    cases hpy : pyIn ", repressed by" d1 with
    | false => rfl
    | true =>
      exfalso
      rw [pyIn, listContains_iff_infix] at hpy
      obtain ⟨u, v, huv⟩ := hpy
      rw [List.append_assoc] at huv
      have hlen : u.length + (", repressed by".toList.length + v.length) =
          d1.toList.length := by
        rw [← huv]
        simp [List.length_append]
        omega
      have hsub : (d1.toList.drop u.length).take ", repressed by".toList.length =
          ", repressed by".toList := by
        rw [← huv, List.drop_left, List.take_left]
      have hmem : (1 : ℚ) ∈ word2scores ", repressed by" d1 := by
        have hm := word2scores_mem (w := ", repressed by") (s := d1) (i := u.length)
          (by omega)
        rwa [hsub, ratioQ_self] at hm
      unfold transcribeNoRep at hnr
      rcases Bool.or_eq_true_iff.mp hnr with hemp | hlt
      · rw [List.isEmpty_iff] at hemp
        rw [hemp] at hmem
        exact absurd hmem (List.not_mem_nil 1)
      · have hle1 := le_pyMaxD_of_mem hmem
        have hlt2 : pyMaxD (word2scores ", repressed by" d1) < 1 := of_decide_eq_true hlt
        exact absurd hle1 (not_le.mpr hlt2)
  · intro hpy
    unfold transcribeNoRep
    by_cases hemp : (word2scores ", repressed by" d1).isEmpty = true
    · rw [hemp, Bool.true_or]
    · have hne : word2scores ", repressed by" d1 ≠ [] := by
        intro h0
        rw [h0] at hemp
        exact hemp rfl
      obtain ⟨hle, i, hi, he⟩ := mem_word2scores (pyMaxD_mem hne)
      have hlt : pyMaxD (word2scores ", repressed by" d1) < 1 := by
        rw [he]
        rcases lt_or_eq_of_le (ratioQ_le_one ", repressed by".toList
            ((d1.toList.drop i).take ", repressed by".toList.length)) with h1 | h1
        · exact h1
        · exfalso
          have hlsub : ((d1.toList.drop i).take ", repressed by".toList.length).length =
              ", repressed by".toList.length := by
            rw [List.length_take, List.length_drop]
            omega
          have heq := (ratioQ_eq_one_iff _ _ hlsub.symm).mp h1
          have hin : pyIn ", repressed by" d1 = true := by
            rw [pyIn, listContains_iff_infix, heq]
            exact ( List.take_prefix _ _).isInfix.trans ( List.drop_suffix _ _).isInfix
          rw [hin] at hpy
          exact Bool.noConfusion hpy
      rw [decide_eq_true hlt, Bool.or_true]

/-- C10: on a clause-free `transcribe` line at line number `n` whose trigger
phrase matches and whose five expected parameters are fresh, the handler
removes the `KF`/`nF` parameters registered by `_preprocessing` exactly when
the line has no `", repressed by"` clause, leaving `Vn`, `Kn`, `nn` as the
line's registered parameters; with the clause present all five of `Vn`,
`Kn`, `nn`, `KFn`, `nFn` remain. -/
theorem c10_transcribe_parameters (b : Builder) (n : Nat) (line : String)
    (hpipe : pyIn "|" line = false)
    (hhit : hitWords b.rule_words "transcribe" line ≠ [])
    (hfresh : ∀ p ∈ (["V", "K", "n", "KF", "nF"] : List String),
      (p ++ toString n) ∉ b.parameters) :
    (pyIn ", repressed by" (transcribeD1 b line) = false →
      (transcribe b n line).1.parameters =
        b.parameters ++ ["V" ++ toString n, "K" ++ toString n, "n" ++ toString n]) ∧
    (pyIn ", repressed by" (transcribeD1 b line) = true →
      (transcribe b n line).1.parameters =
        b.parameters ++ ["V" ++ toString n, "K" ++ toString n, "n" ++ toString n,
          "KF" ++ toString n, "nF" ++ toString n]) := by
  have hnd : ((["V", "K", "n", "KF", "nF"] : List String).map
      (fun p => p ++ toString n)).Nodup :=
    (by decide : (["V", "K", "n", "KF", "nF"] : List String).Nodup).map
      (append_right_injective_str (toString n))
  have hb1 : (setParams n b ["V", "K", "n", "KF", "nF"]).parameters =
      b.parameters ++ ["V" ++ toString n, "K" ++ toString n, "n" ++ toString n,
        "KF" ++ toString n, "nF" ++ toString n] := by
    have hs := params_setParams_fresh n ["V", "K", "n", "KF", "nF"] b hfresh hnd
    simpa using hs
  have hrw : (setParams n b ["V", "K", "n", "KF", "nF"]).rule_words = b.rule_words :=
    rule_words_setParams n _ b
  have hpre : preprocessing b "transcribe" n line ["V", "K", "n", "KF", "nF"] =
      (setParams n b ["V", "K", "n", "KF", "nF"],
        Except.ok (pySplitOn (pyStripWS (lineCutOf line))
          ((maxByLen (hitWords b.rule_words "transcribe" line)).getD ""))) := by
    unfold preprocessing
    rw [if_neg (by rw [hpipe]; exact Bool.false_ne_true)]
    show preprocessingSplit (setParams n b ["V", "K", "n", "KF", "nF"]) "transcribe" line = _
    unfold preprocessingSplit
    rw [hrw, maxByLen_eq_some _ hhit]
    rfl
  have hD1 : (pySplitOn (pyStripWS (lineCutOf line))
      ((maxByLen (hitWords b.rule_words "transcribe" line)).getD "")).getD 1 "" =
      transcribeD1 b line := rfl
  have ne1 : ("V" : String) ++ toString n ≠ "KF" ++ toString n :=
    append_ne_of_length_ne _ (by decide)
  have ne2 : ("K" : String) ++ toString n ≠ "KF" ++ toString n :=
    append_ne_of_length_ne _ (by decide)
  have ne3 : ("n" : String) ++ toString n ≠ "KF" ++ toString n :=
    append_ne_of_length_ne _ (by decide)
  have ne4 : ("V" : String) ++ toString n ≠ "nF" ++ toString n :=
    append_ne_of_length_ne _ (by decide)
  have ne5 : ("K" : String) ++ toString n ≠ "nF" ++ toString n :=
    append_ne_of_length_ne _ (by decide)
  have ne6 : ("n" : String) ++ toString n ≠ "nF" ++ toString n :=
    append_ne_of_length_ne _ (by decide)
  have herase : ((b.parameters ++ ["V" ++ toString n, "K" ++ toString n, "n" ++ toString n,
      "KF" ++ toString n, "nF" ++ toString n]).erase ("KF" ++ toString n)).erase
        ("nF" ++ toString n) =
      b.parameters ++ ["V" ++ toString n, "K" ++ toString n, "n" ++ toString n] := by
    rw [ List.erase_append_right _ (hfresh "KF" (by simp)),
      List.erase_cons_tail (not_beq_of_ne ne1), List.erase_cons_tail (not_beq_of_ne ne2),
      List.erase_cons_tail (not_beq_of_ne ne3), List.erase_cons_head,
      List.erase_append_right _ (hfresh "nF" (by simp)),
      List.erase_cons_tail (not_beq_of_ne ne4), List.erase_cons_tail (not_beq_of_ne ne5),
      List.erase_cons_tail (not_beq_of_ne ne6), List.erase_cons_head]
  constructor
  · intro hno
    have hnr : transcribeNoRep (transcribeD1 b line) = true := (transcribeNoRep_iff _).mpr hno
    unfold transcribe
    rw [hpre]
    dsimp only
    rw [hD1]
    by_cases hsp : pyIn " " (transcribeMRNArep (transcribeD1 b line)).1 = true
    · rw [if_pos ⟨hnr, hsp⟩]
      dsimp only
      rw [removeRepressorParams, if_pos hnr]
      dsimp only
      rw [hb1]
      exact herase
    · rw [if_neg (fun hc => hsp hc.2)]
      rw [params_transcribeCore, removeRepressorParams, if_pos hnr]
      dsimp only
      rw [hb1]
      exact herase
  · intro hyes
    have hnr : ¬ (transcribeNoRep (transcribeD1 b line) = true) := by
      intro h
      rw [(transcribeNoRep_iff _).mp h] at hyes
      exact Bool.noConfusion hyes
    unfold transcribe
    rw [hpre]
    dsimp only
    rw [hD1]
    rw [if_neg (fun hc => hnr hc.1)]
    rw [params_transcribeCore, removeRepressorParams, if_neg hnr]
    exact hb1

/-- Concrete run: `"A transcribes B"` at line 1 is repressor-free, so its
final registered parameters are exactly `V1`, `K1`, `n1`. -/
theorem c10_transcribe_parameters_witness :
    (transcribe initialBuilder 1 "A transcribes B\n").1.parameters = ["V1", "K1", "n1"] :=
  ((c10_transcribe_parameters initialBuilder 1 "A transcribes B\n" (by decide) (by decide)
      (by decide)).1 (by decide)).trans (by decide)


end Pasmopy
